import Mathlib

/-!
Verification of the track-sanitation, aggregation, merge and
recommendation-reconciliation core of the Spotify analyzer repository.

Python values are shallowly embedded as `PyVal` (None, bool, int, str,
list, dict).  Dicts are association lists with string keys, lookup takes
the first matching key and update replaces in place or appends, matching
the insertion-order semantics of Python dicts.  Places where the Python
code can raise an uncaught exception are modelled with `Option`
(`Option.none` = the run crashes) or with an explicit crash flag when the
partially accumulated state matters.  External services (the Spotify
client `sp` and its `artist`/`search` endpoints) are modelled as oracle
functions passed as parameters; an oracle answering `Option.none` (or
`SearchRes.err`) models the external call raising an exception.
-/

set_option autoImplicit false

inductive PyVal where
  | none : PyVal
  | bool (b : Bool) : PyVal
  | int (n : Int) : PyVal
  | str (s : String) : PyVal
  | list (xs : List PyVal) : PyVal
  | dict (kvs : List (String × PyVal)) : PyVal
deriving Repr

mutual

/-- Structural (Python `==`-style) equality test on embedded values. -/
def PyVal.beq : PyVal → PyVal → Bool
  | .none, .none => true
  | .bool a, .bool b => a == b
  | .int a, .int b => a == b
  | .str a, .str b => a == b
  | .list xs, .list ys => PyVal.beqL xs ys
  | .dict xs, .dict ys => PyVal.beqD xs ys
  | _, _ => false

def PyVal.beqL : List PyVal → List PyVal → Bool
  | [], [] => true
  | x :: xs, y :: ys => PyVal.beq x y && PyVal.beqL xs ys
  | _, _ => false

def PyVal.beqD : List (String × PyVal) → List (String × PyVal) → Bool
  | [], [] => true
  | (k1, v1) :: xs, (k2, v2) :: ys => k1 == k2 && PyVal.beq v1 v2 && PyVal.beqD xs ys
  | _, _ => false

end

mutual

theorem PyVal.beq_iff : ∀ a b : PyVal, PyVal.beq a b = true ↔ a = b
  | .none, .none => by simp [PyVal.beq]
  | .none, .bool _ | .none, .int _ | .none, .str _ | .none, .list _ | .none, .dict _ => by
      simp [PyVal.beq]
  | .bool _, .none | .bool _, .int _ | .bool _, .str _ | .bool _, .list _ | .bool _, .dict _ => by
      simp [PyVal.beq]
  | .bool _, .bool _ => by simp [PyVal.beq]
  | .int _, .int _ => by simp [PyVal.beq]
  | .int _, .none | .int _, .bool _ | .int _, .str _ | .int _, .list _ | .int _, .dict _ => by
      simp [PyVal.beq]
  | .str _, .str _ => by simp [PyVal.beq]
  | .str _, .none | .str _, .bool _ | .str _, .int _ | .str _, .list _ | .str _, .dict _ => by
      simp [PyVal.beq]
  | .list xs, .list ys => by
      simp only [PyVal.beq, PyVal.beqL_iff xs ys]
      constructor
      · intro h; rw [h]
      · intro h; cases h; rfl
  | .list _, .none | .list _, .bool _ | .list _, .int _ | .list _, .str _ | .list _, .dict _ => by
      simp [PyVal.beq]
  | .dict xs, .dict ys => by
      simp only [PyVal.beq, PyVal.beqD_iff xs ys]
      constructor
      · intro h; rw [h]
      · intro h; cases h; rfl
  | .dict _, .none | .dict _, .bool _ | .dict _, .int _ | .dict _, .str _ | .dict _, .list _ => by
      simp [PyVal.beq]

theorem PyVal.beqL_iff : ∀ xs ys : List PyVal, PyVal.beqL xs ys = true ↔ xs = ys
  | [], [] => by simp [PyVal.beqL]
  | [], _ :: _ => by simp [PyVal.beqL]
  | _ :: _, [] => by simp [PyVal.beqL]
  | x :: xs, y :: ys => by
      simp [PyVal.beqL, PyVal.beq_iff x y, PyVal.beqL_iff xs ys]

theorem PyVal.beqD_iff : ∀ xs ys : List (String × PyVal), PyVal.beqD xs ys = true ↔ xs = ys
  | [], [] => by simp [PyVal.beqD]
  | [], _ :: _ => by simp [PyVal.beqD]
  | _ :: _, [] => by simp [PyVal.beqD]
  | (_, v1) :: xs, (_, v2) :: ys => by
      simp [PyVal.beqD, PyVal.beq_iff v1 v2, PyVal.beqD_iff xs ys, and_assoc]

end

instance : DecidableEq PyVal := fun a b =>
  decidable_of_iff (PyVal.beq a b = true) (PyVal.beq_iff a b)

/-- Python truthiness of an embedded value. -/
def PyVal.truthy : PyVal → Bool
  | .none => false
  | .bool b => b
  | .int n => n != 0
  | .str s => !s.isEmpty
  | .list xs => !xs.isEmpty
  | .dict kvs => !kvs.isEmpty

def PyVal.isList : PyVal → Bool
  | .list _ => true
  | _ => false

def PyVal.isDict : PyVal → Bool
  | .dict _ => true
  | _ => false

/-- `d.get(k)` on an association-list dict: first matching key. -/
def dictGet : List (String × PyVal) → String → Option PyVal
  | [], _ => Option.none
  | (k2, v) :: rest, k => if k2 = k then some v else dictGet rest k

/-- `d.get(k, default)`. -/
def dictGetD (kvs : List (String × PyVal)) (k : String) (d : PyVal) : PyVal :=
  (dictGet kvs k).getD d

/-- `d[k] = v`: replace the first binding of `k` in place, else append. -/
def dictSet : List (String × PyVal) → String → PyVal → List (String × PyVal)
  | [], k, v => [(k, v)]
  | (k2, v2) :: rest, k, v =>
      if k2 = k then (k2, v) :: rest else (k2, v2) :: dictSet rest k v

/-- `t.get(k)` for a value statically known to be used as a dict
(non-dicts give `None`, used only in theorem statements). -/
def PyVal.get : PyVal → String → PyVal
  | .dict kvs, k => dictGetD kvs k .none
  | _, _ => .none

/-- `Counter[k] += 1` on an association-list counter. -/
def bump {α : Type} [DecidableEq α] : List (α × Nat) → α → List (α × Nat)
  | [], k => [(k, 1)]
  | (k2, n) :: rest, k =>
      if k2 = k then (k2, n + 1) :: rest else (k2, n) :: bump rest k

/-- Python `for x in v`: the element sequence of an iterable value
(`Option.none` = `TypeError`, the value is not iterable). -/
def pyIterate : PyVal → Option (List PyVal)
  | .list xs => some xs
  | .str s => some (s.data.map (fun c => PyVal.str (String.mk [c])))
  | .dict kvs => some (kvs.map (fun kv => PyVal.str kv.1))
  | _ => Option.none

/-- Python `len(v)` (`Option.none` = `TypeError`). -/
def pyLen : PyVal → Option Nat
  | .str s => some s.length
  | .list xs => some xs.length
  | .dict kvs => some kvs.length
  | _ => Option.none

/-- The whitespace characters stripped by Python `int(str)`. -/
def isPySpace (c : Char) : Bool :=
  c = ' ' || c = '\t' || c = '\n' || c = '\r' || c = '\x0b' || c = '\x0c'

/-- Digit run of a Python integer literal after the optional sign:
digits with single underscores allowed between digits. -/
def pyDigitsAux : Nat → List Char → Option Nat
  | acc, [] => some acc
  | acc, c :: cs =>
      if c.isDigit then pyDigitsAux (acc * 10 + (c.toNat - 48)) cs
      else if c = '_' then
        match cs with
        | c2 :: cs2 =>
            if c2.isDigit then pyDigitsAux (acc * 10 + (c2.toNat - 48)) cs2
            else Option.none
        | [] => Option.none
      else Option.none

def pyDigits : List Char → Option Nat
  | [] => Option.none
  | c :: cs => if c.isDigit then pyDigitsAux (c.toNat - 48) cs else Option.none

/-- Python `int(s)` on a string: strip whitespace, optional sign, digit
run (`Option.none` = `ValueError`). -/
def pyIntParse (s : String) : Option Int :=
  let cs := ((s.data.dropWhile isPySpace).reverse.dropWhile isPySpace).reverse
  match cs with
  | '+' :: rest => (pyDigits rest).map Int.ofNat
  | '-' :: rest => (pyDigits rest).map (fun n => -(Int.ofNat n))
  | rest => (pyDigits rest).map Int.ofNat

/-- Python `v[:4]` (`Option.none` = `TypeError`, unsliceable value). -/
def pySlice4 : PyVal → Option PyVal
  | .str s => some (.str (s.take 4))
  | .list xs => some (.list (xs.take 4))
  | _ => Option.none

/-- Python `int(v)` (`Option.none` = `TypeError`/`ValueError`). -/
def pyIntOf : PyVal → Option Int
  | .str s => pyIntParse s
  | .int n => some n
  | .bool b => some (if b then 1 else 0)
  | _ => Option.none

/-!
## Track Sanitizer — `SpotifyAdvancedAnalyzer.sanitize_track_list` (appv2.py)
-/

/-- Step 1 of `sanitize_track_list`: extract the candidate track object.
A dict with a dict-valued `track` field is unwrapped; otherwise a dict
with an `id` key is used directly; anything else is not track-shaped. -/
def extract_track_obj : PyVal → Option (List (String × PyVal))
  | .dict kvs =>
      match dictGet kvs "track" with
      | some (.dict tkvs) => some tkvs
      | _ => if (dictGet kvs "id").isSome then some kvs else Option.none
  | _ => Option.none

/-- Step 4 of `sanitize_track_list`: patch missing/falsy `name`,
`artists`, `album`, and an absent `popularity` key; the Bool records
whether any field was patched. -/
def patch_track (kvs0 : List (String × PyVal)) : List (String × PyVal) × Bool :=
  let nameBad := !(dictGetD kvs0 "name" .none).truthy
  let kvs1 := if nameBad then dictSet kvs0 "name" (.str "İsimsiz Parça") else kvs0
  let aVal := dictGetD kvs1 "artists" .none
  let artistsBad := !aVal.truthy || !aVal.isList
  let kvs2 :=
    if artistsBad then
      dictSet kvs1 "artists" (.list [.dict [("id", .none), ("name", .str "Bilinmeyen Sanatçı")]])
    else kvs1
  let alVal := dictGetD kvs2 "album" .none
  let albumBad := !alVal.truthy || !alVal.isDict
  let kvs3 :=
    if albumBad then
      dictSet kvs2 "album" (.dict [("name", .str "Bilinmeyen Albüm"), ("release_date", .str "1900")])
    else kvs2
  let popMissing := (dictGet kvs3 "popularity").isNone
  let kvs4 := if popMissing then dictSet kvs3 "popularity" (.int 0) else kvs3
  (kvs4, nameBad || artistsBad || albumBad || popMissing)

/-- One loop iteration of `sanitize_track_list`: `Option.none` means the
item is dropped as invalid (no track shape, falsy track object, or no
truthy `id`); otherwise the patched track and its patched flag. -/
def sanitize_item (item : PyVal) : Option (PyVal × Bool) :=
  match extract_track_obj item with
  | Option.none => Option.none
  | some kvs =>
      if !(PyVal.dict kvs).truthy then Option.none
      else if !(dictGetD kvs "id" .none).truthy then Option.none
      else
        let p := patch_track kvs
        some (.dict p.1, p.2)

structure SanitizeResult where
  clean : List PyVal
  invalid_count : Nat
  patched_count : Nat
deriving Repr, DecidableEq

/-- `sanitize_track_list` (appv2.py lines 336-415): the clean list plus
the invalid and patched counters. -/
def sanitize_track_list (tracks : List PyVal) : SanitizeResult :=
  { clean := tracks.filterMap (fun i => (sanitize_item i).map Prod.fst)
    invalid_count := (tracks.filter (fun i => (sanitize_item i).isNone)).length
    patched_count := (tracks.filter (fun i => ((sanitize_item i).map Prod.snd).getD false)).length }

/-!
## Genre/artist analysis — `analyze_genres` (appv2.py and app.py)

The external `sp.artist(artist_id)` endpoint is the oracle
`lookup : PyVal → Option (List String)` returning the artist's genre
list; `Option.none` models the call raising an exception.  The state
additionally records `lookup_calls`, the sequence of artist ids the
external endpoint was invoked on, in call order.
-/

structure GenreState where
  genre_counter : List (String × Nat)
  artist_counter : List (PyVal × Nat)
  genre_by_artist : List (String × List PyVal)
  processed_artists : List PyVal
  lookup_calls : List PyVal
deriving Repr, DecidableEq

def GenreState.init : GenreState := ⟨[], [], [], [], []⟩

/-- `genre_by_artist[genre].add(artist_name)` on a defaultdict of sets
(a set is a duplicate-free list in first-insertion order). -/
def addContributor : List (String × List PyVal) → String → PyVal → List (String × List PyVal)
  | [], g, a => [(g, [a])]
  | (g2, s) :: rest, g, a =>
      if g2 = g then (g2, if a ∈ s then s else s ++ [a]) :: rest
      else (g2, s) :: addContributor rest g a

/-- `genre_counter[genre] += 1; genre_by_artist[genre].add(artist_name)`
for one genre returned by the lookup. -/
def genre_update (aname : PyVal) (st : GenreState) (g : String) : GenreState :=
  { st with
    genre_counter := bump st.genre_counter g
    genre_by_artist := addContributor st.genre_by_artist g aname }

/-- The inner artist loop body of appv2's `analyze_genres`: skip
non-dict artists and artists without a truthy id; bump the occurrence
counter unconditionally; consult the external lookup only for ids not in
`processed_artists`; lookup failure is swallowed. -/
def process_artist (lookup : PyVal → Option (List String)) (s : GenreState)
    (artist : PyVal) : GenreState :=
  match artist with
  | .dict akvs =>
      if (dictGetD akvs "id" .none).truthy then
        let artist_id := dictGetD akvs "id" .none
        let artist_name := dictGetD akvs "name" (.str "Unknown")
        let s1 := { s with artist_counter := bump s.artist_counter artist_name }
        if artist_id ∈ s1.processed_artists then s1
        else
          let s2 := { s1 with
                      processed_artists := s1.processed_artists ++ [artist_id]
                      lookup_calls := s1.lookup_calls ++ [artist_id] }
          match lookup artist_id with
          | Option.none => s2
          | some genres => genres.foldl (genre_update artist_name) s2
      else s
  | _ => s

/-- One track of appv2's `analyze_genres`; `Option.none` models an
uncaught exception (`track.get` on a non-dict, or iterating a
non-iterable `artists` value). -/
def process_track (lookup : PyVal → Option (List String)) (s : GenreState)
    (track : PyVal) : Option GenreState :=
  match track with
  | .dict kvs =>
      match pyIterate (dictGetD kvs "artists" (.list [])) with
      | some artists => some (artists.foldl (process_artist lookup) s)
      | Option.none => Option.none
  | _ => Option.none

/-- `analyze_genres` (appv2.py lines 477-515).  The Bool is the crash
flag; the state holds everything accumulated up to the crash. -/
def genre_track_step (lookup : PyVal → Option (List String))
    (acc : GenreState × Bool) (t : PyVal) : GenreState × Bool :=
  if acc.2 then acc
  else
    match process_track lookup acc.1 t with
    | some s2 => (s2, false)
    | Option.none => (acc.1, true)

def analyze_genres (lookup : PyVal → Option (List String))
    (tracks : List PyVal) : GenreState × Bool :=
  tracks.foldl (genre_track_step lookup) (GenreState.init, false)

/-- The inner artist loop body of the legacy app.py `analyze_genres`:
`artist['name']` is accessed unguarded (`Option.none` = crash), the
counter is bumped, and the external lookup runs for every appearance of
an artist that has an `id` key — there is no processed-artist set. -/
def app_process_artist (lookup : PyVal → Option (List String)) (s : GenreState)
    (artist : PyVal) : Option GenreState :=
  match artist with
  | .dict akvs =>
      match dictGet akvs "name" with
      | some aname =>
          let s1 := { s with artist_counter := bump s.artist_counter aname }
          match dictGet akvs "id" with
          | some aid =>
              let s2 := { s1 with lookup_calls := s1.lookup_calls ++ [aid] }
              match lookup aid with
              | Option.none => some s2
              | some genres => some (genres.foldl (genre_update aname) s2)
          | Option.none => some s1
      | Option.none => Option.none
  | _ => Option.none

def app_process_artists (lookup : PyVal → Option (List String)) :
    List PyVal → GenreState → GenreState × Bool
  | [], s => (s, false)
  | a :: rest, s =>
      match app_process_artist lookup s a with
      | some s2 => app_process_artists lookup rest s2
      | Option.none => (s, true)

/-- One track of app.py's `analyze_genres`: `track.get('track', track)`
unwraps an optional wrapper, then the artist loop runs. -/
def app_process_track (lookup : PyVal → Option (List String)) (s : GenreState)
    (track : PyVal) : GenreState × Bool :=
  match track with
  | .dict kvs =>
      match dictGetD kvs "track" (.dict kvs) with
      | .dict tkvs =>
          match pyIterate (dictGetD tkvs "artists" (.list [])) with
          | some artists => app_process_artists lookup artists s
          | Option.none => (s, true)
      | _ => (s, true)
  | _ => (s, true)

/-- `analyze_genres` (app.py lines 89-105, legacy version without the
processed-artist de-duplication set). -/
def app_genre_track_step (lookup : PyVal → Option (List String))
    (acc : GenreState × Bool) (t : PyVal) : GenreState × Bool :=
  if acc.2 then acc
  else
    let r := app_process_track lookup acc.1 t
    if r.2 then (acc.1, true) else (r.1, false)

def app_analyze_genres (lookup : PyVal → Option (List String))
    (tracks : List PyVal) : GenreState × Bool :=
  tracks.foldl (app_genre_track_step lookup) (GenreState.init, false)

/-!
## Popularity analysis — `analyze_popularity` (appv2.py lines 517-537)
-/

/-- The list comprehension
`[track.get('popularity', 0) for track in tracks if track.get('popularity')]`;
`Option.none` models the crash of `.get` on a non-dict track. -/
def pop_values : List PyVal → Option (List PyVal)
  | [] => some []
  | t :: ts =>
      match t with
      | .dict kvs =>
          match pop_values ts with
          | some rest =>
              some (if (dictGetD kvs "popularity" .none).truthy
                    then dictGetD kvs "popularity" .none :: rest else rest)
          | Option.none => Option.none
      | _ => Option.none

/-- Numeric coercion used by `statistics.mean`/`median` and `max`/`min`
(`Option.none` = `TypeError` on non-numeric data). -/
def pyNumber : PyVal → Option Int
  | .int n => some n
  | .bool b => some (if b then 1 else 0)
  | _ => Option.none

def insertSorted (x : Int) : List Int → List Int
  | [] => [x]
  | y :: ys => if x ≤ y then x :: y :: ys else y :: insertSorted x ys

/-- `sorted(xs)` as used by `statistics.median`. -/
def sortInts (xs : List Int) : List Int := xs.foldr insertSorted []

/-- `statistics.median`: the middle element, or the mean of the two
middle elements of the sorted data (exact rational arithmetic stands in
for Python floats). -/
def pyMedian (xs : List Int) : Rat :=
  let s := sortInts xs
  let n := s.length
  if n % 2 = 1 then ((s.getD (n / 2) 0 : Int) : Rat)
  else (((s.getD (n / 2 - 1) 0 + s.getD (n / 2) 0 : Int)) : Rat) / 2

def pyMax : List Int → Int
  | [] => 0
  | x :: xs => xs.foldl max x

def pyMin : List Int → Int
  | [] => 0
  | x :: xs => xs.foldl min x

structure PopStats where
  avg : Rat
  max : Int
  min : Int
  median : Rat
deriving Repr, DecidableEq

/-- The stats dict built from the filtered popularity values. -/
def pop_stats (ns : List Int) : PopStats :=
  { avg := (ns.sum : Rat) / (ns.length : Rat)
    max := pyMax ns
    min := pyMin ns
    median := pyMedian ns }

/-- `analyze_popularity` (appv2.py lines 517-537).  Outer `Option.none`
= uncaught exception; `some Option.none` = the function returns `None`
because no track had a truthy popularity. -/
def analyze_popularity (tracks : List PyVal) : Option (Option PopStats) :=
  match pop_values tracks with
  | Option.none => Option.none
  | some pops =>
      if pops.isEmpty then some Option.none
      else
        match pops.mapM pyNumber with
        | some ns => some (some (pop_stats ns))
        | Option.none => Option.none

/-!
## Decade analysis — `get_decade_distribution` (appv2.py and app.py)
-/

/-- `safe_get(track, 'album', 'release_date', default='')`
(appv2.py lines 78-85): non-dict intermediate values yield `''`. -/
def safe_get_release_date (track : PyVal) : PyVal :=
  match track with
  | .dict kvs =>
      match dictGetD kvs "album" (.str "") with
      | .dict akvs => dictGetD akvs "release_date" (.str "")
      | _ => .str ""
  | _ => .str ""

/-- `f"{decade}'ler"` for `decade = (year // 10) * 10`. -/
def decade_label (year : Int) : String :=
  toString (year.fdiv 10 * 10) ++ "\x27ler"

/-- `get_decade_distribution` (appv2.py lines 539-555): the decade
counter plus a crash flag (`len()` of a truthy non-sized release date
raises outside the `try`).  Parse failures inside the `try` are
skipped. -/
def decade_step (acc : List (String × Nat) × Bool) (t : PyVal) :
    List (String × Nat) × Bool :=
  if acc.2 then acc
  else
    let d := safe_get_release_date t
    if d.truthy then
      match pyLen d with
      | some n =>
          if 4 ≤ n then
            match (pySlice4 d).bind pyIntOf with
            | some y => (bump acc.1 (decade_label y), false)
            | Option.none => acc
          else acc
      | Option.none => (acc.1, true)
    else acc

def get_decade_distribution (tracks : List PyVal) : List (String × Nat) × Bool :=
  tracks.foldl decade_step ([], false)

/-- Release-date access of app.py's `get_decade_distribution`:
`track.get('track', track).get('album', {}).get('release_date', '')`
(`Option.none` = crash on a non-dict intermediate). -/
def app_release_date (t : PyVal) : Option PyVal :=
  match t with
  | .dict kvs =>
      match dictGetD kvs "track" (.dict kvs) with
      | .dict tkvs =>
          match dictGetD tkvs "album" (.dict []) with
          | .dict akvs => some (dictGetD akvs "release_date" (.str ""))
          | _ => Option.none
      | _ => Option.none
  | _ => Option.none

/-- `get_decade_distribution` (app.py lines 112-123, legacy version):
any truthy release date is attempted — there is no length-4 guard. -/
def app_decade_step (acc : List (String × Nat) × Bool) (t : PyVal) :
    List (String × Nat) × Bool :=
  if acc.2 then acc
  else
    match app_release_date t with
    | Option.none => (acc.1, true)
    | some d =>
        if d.truthy then
          match (pySlice4 d).bind pyIntOf with
          | some y => (bump acc.1 (decade_label y), false)
          | Option.none => acc
        else acc

def app_get_decade_distribution (tracks : List PyVal) : List (String × Nat) × Bool :=
  tracks.foldl app_decade_step ([], false)

/-!
## Source merge — `get_all_user_tracks_heavy` (appv2.py lines 289-330)

The dict `all_tracks_dict` is keyed by the track's `id` value
(last-write-wins, insertion order preserved).  The saved-track phase is
outside any `try` (a crash aborts the whole run = `Option.none`);
each playlist scan is inside a `try`, so a crash there keeps the
partially merged state and moves on to the next playlist.
-/

def dict_insert (d : List (PyVal × PyVal)) (k v : PyVal) : List (PyVal × PyVal) :=
  match d with
  | [] => [(k, v)]
  | (k2, v2) :: rest => if k2 = k then (k2, v) :: rest else (k2, v2) :: dict_insert rest k v

/-- `if track and track.get('id'): all_tracks_dict[track['id']] = track`
(`Option.none` = `.get` crash on a truthy non-dict). -/
def add_track (d : List (PyVal × PyVal)) (t : PyVal) : Option (List (PyVal × PyVal)) :=
  if t.truthy then
    match t with
    | .dict kvs =>
        some (if (dictGetD kvs "id" .none).truthy
              then dict_insert d (dictGetD kvs "id" .none) t else d)
    | _ => Option.none
  else some d

def scan_tracks (d : List (PyVal × PyVal)) : List PyVal → List (PyVal × PyVal) × Bool
  | [] => (d, false)
  | t :: ts =>
      match add_track d t with
      | some d2 => scan_tracks d2 ts
      | Option.none => (d, true)

/-- `get_all_user_tracks_heavy`: merge the saved library and the tracks
of each playlist into `all_tracks_dict` and return its values. -/
def get_all_user_tracks_heavy (saved : List PyVal) (playlists : List (List PyVal)) :
    Option (List PyVal) :=
  let r1 := scan_tracks [] saved
  if r1.2 then Option.none
  else some ((playlists.foldl (fun d pl => (scan_tracks d pl).1) r1.1).map Prod.snd)

/-!
## Recommendation reconciler — `create_spotify_playlist`
(appv2.py lines 1029-1083; the search loop of app.py lines 429-470 is
identical in structure)

Each `sp.search` call is an oracle indexed by the suggestion position:
`SearchRes.err` = the call raised (caught), `SearchRes.noMatch` = it
returned an empty item list, `SearchRes.found u` = it returned a best
item whose `uri` is `u`.
-/

inductive SearchRes where
  | err : SearchRes
  | noMatch : SearchRes
  | found (uri : PyVal) : SearchRes
deriving Repr, DecidableEq

/-- Did this phase leave `track_uri` truthy? -/
def SearchRes.hit : SearchRes → Bool
  | .found u => u.truthy
  | _ => false

structure ReconcileState where
  track_uris : List PyVal
  songs_found_count : Nat
  not_found_songs : List Nat
  search_attempts : List (Nat × Nat)
deriving Repr, DecidableEq

def ReconcileState.init : ReconcileState := ⟨[], 0, [], []⟩

/-- The per-suggestion body of the search loop: Phase 1 always runs;
Phase 2 runs exactly when `track_uri` is still falsy; a truthy final
`track_uri` is appended and counted, otherwise the suggestion is
recorded as not found.  `search_attempts` logs `(index, phase)` for
every issued `sp.search` call. -/
def step_song (i : Nat) (r1 r2 : SearchRes) (s : ReconcileState) : ReconcileState :=
  let u1 : Option PyVal := match r1 with | .found u => some u | _ => Option.none
  let a1 := s.search_attempts ++ [(i, 1)]
  let ua : Option PyVal × List (Nat × Nat) :=
    if r1.hit then (u1, a1)
    else (match r2 with | .found u => some u | _ => u1, a1 ++ [(i, 2)])
  match ua.1 with
  | some v =>
      if v.truthy then
        { track_uris := s.track_uris ++ [v]
          songs_found_count := s.songs_found_count + 1
          not_found_songs := s.not_found_songs
          search_attempts := ua.2 }
      else { s with not_found_songs := s.not_found_songs ++ [i], search_attempts := ua.2 }
  | Option.none => { s with not_found_songs := s.not_found_songs ++ [i], search_attempts := ua.2 }

/-- The search loop from suggestion index `i`, `n` suggestions
remaining: the loop breaks as soon as `songs_found_count` reaches the
target. -/
def search_songs_from (p1 p2 : Nat → SearchRes) (target : Nat) :
    Nat → Nat → ReconcileState → ReconcileState
  | _, 0, s => s
  | i, n + 1, s =>
      if target ≤ s.songs_found_count then s
      else search_songs_from p1 p2 target (i + 1) n (step_song i (p1 i) (p2 i) s)

/-- The whole search loop of `create_spotify_playlist` over `n`
suggestions (`config.PLAYLIST_TARGET_SIZE = 10` in the app). -/
def create_spotify_playlist_search (p1 p2 : Nat → SearchRes) (target n : Nat) :
    ReconcileState :=
  search_songs_from p1 p2 target 0 n ReconcileState.init

/-!
## Auxiliary definitions used by the claim statements
-/

/-- Is a popularity value an integer in `[0, 100]`? -/
def pop_in_range : PyVal → Bool
  | .int p => decide (0 ≤ p) && decide (p ≤ 100)
  | _ => false

/-- Every popularity value present on the extracted track object of this
raw item lies in `[0, 100]`. -/
def pop_input_ok (item : PyVal) : Bool :=
  match extract_track_obj item with
  | some kvs =>
      match dictGet kvs "popularity" with
      | some v => pop_in_range v
      | Option.none => true
  | Option.none => true

/-- The value does not carry a dict-valued `track` field (re-sanitizing
such a value would unwrap it instead of passing it through). -/
def no_track_wrapper : PyVal → Bool
  | .dict kvs =>
      match dictGet kvs "track" with
      | some (.dict _) => false
      | _ => true
  | _ => true

/-- A raw item that extracts to a valid track object whose `album` key is
absent or whose `album` value is not a dict. -/
def album_missing_or_nondict (item : PyVal) : Bool :=
  match extract_track_obj item with
  | some kvs =>
      match dictGet kvs "album" with
      | Option.none => true
      | some v => !v.isDict
  | Option.none => false

/-- The placeholder album installed by the sanitizer. -/
def placeholder_album : PyVal :=
  .dict [("name", .str "Bilinmeyen Albüm"), ("release_date", .str "1900")]

/-- Concrete input of example scenario 1 of the specification. -/
def scenario1_item : PyVal :=
  .dict [("track", .dict [("id", .str "t1"), ("popularity", .int 80),
    ("album", .dict [("release_date", .str "1994-03-01")])])]

/-- A raw item whose unwrapped track object itself carries a dict-valued
`track` field. -/
def nested_wrapper_item : PyVal :=
  .dict [("track", .dict [("id", .str "a"), ("track", .dict [("id", .str "b")])])]

def c1WitnessInput : List PyVal := [.dict [("id", .str "x"), ("popularity", .int 80)]]

def c5WitnessInput : List PyVal :=
  [.dict [("id", .str "t1"), ("popularity", .int 80),
    ("album", .dict [("release_date", .str "1994-03-01")])]]

def c10WitnessInput : List PyVal :=
  [.dict [("id", .str "a")], .dict [("id", .str "b"), ("album", .str "x")]]

def c4WitnessInput : List PyVal :=
  [.dict [("album", .dict [("release_date", .str "1994-03-01")])]]

def c4CexInput : List PyVal := [.dict [("album", .dict [("release_date", .str "99")])]]

/-- The tracks with a truthy `popularity`, projected to that value —
the re-expression of the filtering comprehension of
`analyze_popularity` used to state claim C7. -/
def truthy_pops (tracks : List PyVal) : List PyVal :=
  (tracks.filter (fun t => (t.get "popularity").truthy)).map (fun t => t.get "popularity")

def c7WitnessInput : List PyVal :=
  [.dict [("popularity", .int 80)], .dict [("popularity", .int 0)], .dict []]

def c3P1 : Nat → SearchRes := fun _ => .found (.str "spotify:track:1")
def c3P2 : Nat → SearchRes := fun _ => .noMatch

/-- An artist reference that `analyze_genres` counts and (on first
encounter) looks up: a dict with a truthy `id`. -/
def qual_artist (a : PyVal) : Bool :=
  match a with
  | .dict akvs => (dictGetD akvs "id" .none).truthy
  | _ => false

/-- The number of qualifying artist references appearing on one track. -/
def track_appearances (t : PyVal) : Nat :=
  match t with
  | .dict kvs =>
      match pyIterate (dictGetD kvs "artists" (.list [])) with
      | some arts => arts.countP qual_artist
      | Option.none => 0
  | _ => 0

def c2Lookup : PyVal → Option (List String) := fun _ => some ["rock"]

def c2Tracks : List PyVal :=
  [.dict [("artists", .list [.dict [("id", .str "a"), ("name", .str "A")]])],
   .dict [("artists", .list [.dict [("id", .str "a"), ("name", .str "A")]])]]

/-- The id under which `get_all_user_tracks_heavy` stores a track:
present exactly when the track is truthy with a truthy `id`. -/
def track_qual_id (t : PyVal) : Option PyVal :=
  if t.truthy then
    match t with
    | .dict kvs =>
        if (dictGetD kvs "id" .none).truthy then some (dictGetD kvs "id" .none)
        else Option.none
    | _ => Option.none
  else Option.none

/-- The qualifying ids of a track list, in encounter order. -/
def qual_ids (ts : List PyVal) : List PyVal := ts.filterMap track_qual_id

/-- The pure merge fold: insert each track with a qualifying id under
that id (last-write-wins). -/
def insert_fold (d : List (PyVal × PyVal)) (ts : List PyVal) : List (PyVal × PyVal) :=
  ts.foldl (fun d2 t =>
    match track_qual_id t with
    | some k => dict_insert d2 k t
    | Option.none => d2) d

def c6Saved : List PyVal :=
  [.dict [("id", .str "x9"), ("name", .str "s1")]]

def c6Playlists : List (List PyVal) :=
  [[.dict [("id", .str "x9"), ("name", .str "s2")], .dict [("id", .str "y")]],
   [.dict [("id", .str "x9"), ("name", .str "s3")]]]

/-!
## Dictionary and counter lemmas
-/

theorem dictGet_dictSet (kvs : List (String × PyVal)) (k q : String) (v : PyVal) :
    dictGet (dictSet kvs k v) q = if q = k then some v else dictGet kvs q := by
  induction kvs with
  | nil =>
      by_cases h : q = k
      · subst h; simp [dictSet, dictGet]
      · have hk : ¬(k = q) := fun hh => h hh.symm
        simp [dictSet, dictGet, h, hk]
  | cons kv rest ih =>
      obtain ⟨k2, v2⟩ := kv
      by_cases h1 : k2 = k
      · subst h1
        by_cases h2 : q = k2
        · subst h2; simp [dictSet, dictGet]
        · have hk : ¬(k2 = q) := fun hh => h2 hh.symm
          simp [dictSet, dictGet, h2, hk]
      · by_cases h2 : q = k2
        · subst h2
          simp [dictSet, dictGet, h1]
        · have hk : ¬(k2 = q) := fun hh => h2 hh.symm
          simp [dictSet, dictGet, h1, hk, ih]

theorem dictGetD_dictSet (kvs : List (String × PyVal)) (k q : String) (v d : PyVal) :
    dictGetD (dictSet kvs k v) q d = if q = k then v else dictGetD kvs q d := by
  by_cases h : q = k <;> simp [dictGetD, dictGet_dictSet, h]

/-!
## Sanitizer lemmas and claims C1, C5
-/

theorem patch_track_name (kvs : List (String × PyVal)) :
    (dictGetD (patch_track kvs).1 "name" .none).truthy = true := by
  simp only [patch_track]
  split_ifs <;>
    first
      | (simp_all [dictGetD_dictSet, dictGetD, dictGet_dictSet, PyVal.truthy]) <;> decide
      | simp_all [dictGetD_dictSet, dictGetD, dictGet_dictSet, PyVal.truthy]

theorem patch_track_artists (kvs : List (String × PyVal)) :
    (dictGetD (patch_track kvs).1 "artists" .none).truthy = true ∧
    (dictGetD (patch_track kvs).1 "artists" .none).isList = true := by
  simp only [patch_track]
  split_ifs <;>
    first
      | (simp_all [dictGetD_dictSet, dictGetD, dictGet_dictSet, PyVal.truthy, PyVal.isList]) <;>
          decide
      | simp_all [dictGetD_dictSet, dictGetD, dictGet_dictSet, PyVal.truthy, PyVal.isList]

theorem patch_track_album (kvs : List (String × PyVal)) :
    (dictGetD (patch_track kvs).1 "album" .none).truthy = true ∧
    (dictGetD (patch_track kvs).1 "album" .none).isDict = true := by
  simp only [patch_track]
  split_ifs <;>
    first
      | (simp_all [dictGetD_dictSet, dictGetD, dictGet_dictSet, PyVal.truthy, PyVal.isDict]) <;>
          decide
      | simp_all [dictGetD_dictSet, dictGetD, dictGet_dictSet, PyVal.truthy, PyVal.isDict]

theorem patch_track_id (kvs : List (String × PyVal)) :
    dictGet (patch_track kvs).1 "id" = dictGet kvs "id" := by
  simp only [patch_track]
  split_ifs <;> simp_all [dictGet_dictSet]

theorem patch_track_track_key (kvs : List (String × PyVal)) :
    dictGet (patch_track kvs).1 "track" = dictGet kvs "track" := by
  simp only [patch_track]
  split_ifs <;> simp_all [dictGet_dictSet]

theorem patch_track_pop (kvs : List (String × PyVal)) :
    (∃ v, dictGet kvs "popularity" = some v ∧
      dictGet (patch_track kvs).1 "popularity" = some v) ∨
    (dictGet kvs "popularity" = Option.none ∧
      dictGet (patch_track kvs).1 "popularity" = some (.int 0)) := by
  have hget : dictGet (patch_track kvs).1 "popularity" =
      (if (dictGet kvs "popularity").isNone then some (.int 0)
       else dictGet kvs "popularity") := by
    simp only [patch_track]
    split_ifs <;> simp_all [dictGet_dictSet]
  cases hv : dictGet kvs "popularity" with
  | none => exact Or.inr ⟨rfl, by rw [hget, hv]; simp⟩
  | some v => exact Or.inl ⟨v, rfl, by rw [hget, hv]; simp⟩

theorem sanitize_item_eq (item t : PyVal) (b : Bool)
    (h : sanitize_item item = some (t, b)) :
    ∃ kvs, extract_track_obj item = some kvs ∧
      (dictGetD kvs "id" .none).truthy = true ∧
      t = .dict (patch_track kvs).1 ∧ b = (patch_track kvs).2 := by
  unfold sanitize_item at h
  cases he : extract_track_obj item with
  | none => rw [he] at h; exact absurd h (by simp)
  | some kvs =>
      rw [he] at h
      by_cases h1 : (PyVal.dict kvs).truthy = true
      · by_cases h2 : (dictGetD kvs "id" .none).truthy = true
        · simp only [h1, h2, Bool.not_true, if_neg, Bool.false_eq_true,
            not_false_eq_true, if_false] at h
          refine ⟨kvs, rfl, h2, ?_, ?_⟩
          · exact (Prod.mk.injEq _ _ _ _ ▸ (Option.some.injEq _ _ ▸ h)).1.symm
          · exact (Prod.mk.injEq _ _ _ _ ▸ (Option.some.injEq _ _ ▸ h)).2.symm
        · simp [h1, h2] at h
      · simp [h1] at h

/-- C1 (corrected): for every input sequence — unconditionally — the
sanitizer's output is no longer than the input and every emitted track
has a truthy `id`, truthy `name` and a truthy, list-valued `artists`;
the `popularity` of every emitted track lies in `[0, 100]` provided
every popularity value present on an input track object already lies in
`[0, 100]` (the code never clamps a present out-of-range value — see
the counterexample). -/
theorem C1_sanitizer_output_invariants (tracks : List PyVal) :
    (sanitize_track_list tracks).clean.length ≤ tracks.length ∧
    (∀ t ∈ (sanitize_track_list tracks).clean,
      (t.get "id").truthy = true ∧ (t.get "name").truthy = true ∧
      (t.get "artists").truthy = true ∧ (t.get "artists").isList = true) ∧
    ((∀ item ∈ tracks, pop_input_ok item = true) →
      ∀ t ∈ (sanitize_track_list tracks).clean,
        pop_in_range (t.get "popularity") = true) := by
  refine ⟨List.length_filterMap_le _ _, ?_, ?_⟩
  · intro t ht
    simp only [sanitize_track_list, List.mem_filterMap] at ht
    obtain ⟨item, hitem, hsan⟩ := ht
    cases hs : sanitize_item item with
    | none => rw [hs] at hsan; exact absurd hsan (by simp)
    | some tb =>
        rw [hs] at hsan
        obtain ⟨t2, b⟩ := tb
        simp at hsan
        subst hsan
        obtain ⟨kvs, he, hid, htd, _⟩ := sanitize_item_eq item t2 b hs
        subst htd
        have hid2 : dictGet (patch_track kvs).1 "id" = dictGet kvs "id" := patch_track_id kvs
        refine ⟨?_, ?_, ?_, ?_⟩
        · show (dictGetD (patch_track kvs).1 "id" .none).truthy = true
          rw [dictGetD, hid2]; exact hid
        · exact patch_track_name kvs
        · exact (patch_track_artists kvs).1
        · exact (patch_track_artists kvs).2
  · intro hpop t ht
    simp only [sanitize_track_list, List.mem_filterMap] at ht
    obtain ⟨item, hitem, hsan⟩ := ht
    cases hs : sanitize_item item with
    | none => rw [hs] at hsan; exact absurd hsan (by simp)
    | some tb =>
        rw [hs] at hsan
        obtain ⟨t2, b⟩ := tb
        simp at hsan
        subst hsan
        obtain ⟨kvs, he, hid, htd, _⟩ := sanitize_item_eq item t2 b hs
        subst htd
        show pop_in_range (dictGetD (patch_track kvs).1 "popularity" .none) = true
        have hok := hpop item hitem
        unfold pop_input_ok at hok
        rw [he] at hok
        rcases patch_track_pop kvs with ⟨v, hv, hv2⟩ | ⟨hv, hv2⟩
        · rw [dictGetD, hv2]
          simp only [hv] at hok
          simpa using hok
        · rw [dictGetD, hv2]
          rfl

/-- C1 counterexample: an input track with `id` present and
`popularity = 150` passes sanitation unchanged, so the claim's
unconditional `popularity ∈ [0, 100]` clause is false. -/
theorem C1_counterexample :
    ¬ (∀ t ∈ (sanitize_track_list
          [.dict [("id", .str "x"), ("popularity", .int 150)]]).clean,
        pop_in_range (t.get "popularity") = true) := by decide

/-- Witness for C1 at a concrete input, discharging the popularity
hypothesis there. -/
theorem C1_witness :
    (sanitize_track_list c1WitnessInput).clean.length ≤ c1WitnessInput.length ∧
    (∀ t ∈ (sanitize_track_list c1WitnessInput).clean,
      (t.get "id").truthy = true ∧ (t.get "name").truthy = true ∧
      (t.get "artists").truthy = true ∧ (t.get "artists").isList = true) ∧
    ((∀ item ∈ c1WitnessInput, pop_input_ok item = true) ∧
      ∀ t ∈ (sanitize_track_list c1WitnessInput).clean,
        pop_in_range (t.get "popularity") = true) :=
  ⟨(C1_sanitizer_output_invariants c1WitnessInput).1,
   (C1_sanitizer_output_invariants c1WitnessInput).2.1,
   by decide,
   (C1_sanitizer_output_invariants c1WitnessInput).2.2 (by decide)⟩

theorem patch_track_noop (kvs : List (String × PyVal))
    (hname : (dictGetD kvs "name" .none).truthy = true)
    (hart : (dictGetD kvs "artists" .none).truthy = true)
    (hartl : (dictGetD kvs "artists" .none).isList = true)
    (halb : (dictGetD kvs "album" .none).truthy = true)
    (halbd : (dictGetD kvs "album" .none).isDict = true)
    (hpop : (dictGet kvs "popularity").isSome = true) :
    patch_track kvs = (kvs, false) := by
  have hpn : (dictGet kvs "popularity").isNone = false := by
    cases h : dictGet kvs "popularity" with
    | none => rw [h] at hpop; simp at hpop
    | some v => simp
  simp [patch_track, hname, hart, hartl, halb, halbd, hpn]

theorem sanitize_item_clean (pkvs : List (String × PyVal))
    (hid : (dictGetD pkvs "id" .none).truthy = true)
    (hname : (dictGetD pkvs "name" .none).truthy = true)
    (hart : (dictGetD pkvs "artists" .none).truthy = true)
    (hartl : (dictGetD pkvs "artists" .none).isList = true)
    (halb : (dictGetD pkvs "album" .none).truthy = true)
    (halbd : (dictGetD pkvs "album" .none).isDict = true)
    (hpop : (dictGet pkvs "popularity").isSome = true)
    (htrk : no_track_wrapper (.dict pkvs) = true) :
    sanitize_item (.dict pkvs) = some (.dict pkvs, false) := by
  have hids : (dictGet pkvs "id").isSome = true := by
    cases h : dictGet pkvs "id" with
    | none => rw [dictGetD, h] at hid; simp [Option.getD] at hid; exact absurd hid (by decide)
    | some v => simp
  have hne : pkvs ≠ [] := by
    intro h; subst h; simp [dictGet] at hids
  have htr : (PyVal.dict pkvs).truthy = true := by
    cases pkvs with
    | nil => exact absurd rfl hne
    | cons a rest => simp [PyVal.truthy]
  have htrk2 : (match dictGet pkvs "track" with
      | some (PyVal.dict _) => false
      | _ => true) = true := by
    simpa [no_track_wrapper] using htrk
  have hext : extract_track_obj (.dict pkvs) = some pkvs := by
    unfold extract_track_obj
    cases h : dictGet pkvs "track" with
    | none => simp [h, hids]
    | some v =>
        rw [h] at htrk2
        cases v <;> simp at htrk2 <;> simp [h, hids]
  unfold sanitize_item
  rw [hext]
  simp only [htr, hid, Bool.not_true, Bool.false_eq_true, if_false]
  rw [patch_track_noop pkvs hname hart hartl halb halbd hpop]

theorem sanitize_fixpoint_list (l : List PyVal)
    (h : ∀ t ∈ l, sanitize_item t = some (t, false)) :
    sanitize_track_list l = ⟨l, 0, 0⟩ := by
  induction l with
  | nil => rfl
  | cons x xs ih =>
      have hx := h x (by simp)
      have ihe := ih (fun t ht => h t (by simp [ht]))
      have h1 := congrArg SanitizeResult.clean ihe
      have h2 := congrArg SanitizeResult.invalid_count ihe
      have h3 := congrArg SanitizeResult.patched_count ihe
      simp only [sanitize_track_list] at h1 h2 h3
      simp [sanitize_track_list, SanitizeResult.mk.injEq, List.filterMap_cons,
        List.filter_cons, hx, h1, h2, h3]

/-- C5 (corrected): re-sanitizing the sanitizer's own output returns it
unchanged with zero invalid and zero patched items, provided no clean
track itself carries a dict-valued `track` field (such a field makes the
second pass unwrap the track instead — see the counterexample). -/
theorem C5_sanitize_idempotent (tracks : List PyVal)
    (hnt : ∀ t ∈ (sanitize_track_list tracks).clean, no_track_wrapper t = true) :
    sanitize_track_list ((sanitize_track_list tracks).clean) =
      ⟨(sanitize_track_list tracks).clean, 0, 0⟩ := by
  apply sanitize_fixpoint_list
  intro t ht
  have hw := hnt t ht
  simp only [sanitize_track_list, List.mem_filterMap] at ht
  obtain ⟨item, _, hsan⟩ := ht
  cases hs : sanitize_item item with
  | none => rw [hs] at hsan; exact absurd hsan (by simp)
  | some tb =>
      rw [hs] at hsan
      obtain ⟨t2, b⟩ := tb
      simp at hsan
      subst hsan
      obtain ⟨kvs, _, hid, htd, _⟩ := sanitize_item_eq item t2 b hs
      subst htd
      have hpop : (dictGet (patch_track kvs).1 "popularity").isSome = true := by
        rcases patch_track_pop kvs with ⟨v, _, hv2⟩ | ⟨_, hv2⟩ <;> rw [hv2] <;> simp
      exact sanitize_item_clean (patch_track kvs).1
        (by rw [dictGetD, patch_track_id kvs]; exact hid)
        (patch_track_name kvs)
        (patch_track_artists kvs).1 (patch_track_artists kvs).2
        (patch_track_album kvs).1 (patch_track_album kvs).2
        hpop hw

/-- C5 counterexample: a sanitized track that still carries a dict-valued
`track` field is unwrapped — not fixed — by a second sanitation pass, so
the unconditional idempotence claim is false. -/
theorem C5_counterexample :
    ¬ (sanitize_track_list ((sanitize_track_list [nested_wrapper_item]).clean) =
        ⟨(sanitize_track_list [nested_wrapper_item]).clean, 0, 0⟩) := by decide

/-- Witness for C5 at a concrete input. -/
theorem C5_witness :
    (∀ t ∈ (sanitize_track_list c5WitnessInput).clean, no_track_wrapper t = true) ∧
    sanitize_track_list ((sanitize_track_list c5WitnessInput).clean) =
      ⟨(sanitize_track_list c5WitnessInput).clean, 0, 0⟩ :=
  ⟨by decide, C5_sanitize_idempotent c5WitnessInput (by decide)⟩

/-!
## Claim C9 — example scenario 1
-/

/-- C9 (corrected): sanitizing the single wrapped item patches `name`
and `artists` with the placeholders, keeps `popularity = 80`, and the
decade histogram over the result is the single 1990s entry — but the
code's decade label is the Turkish `"1990\x27ler"`, not `"1990\x27s"` as
the claim states. -/
theorem C9_scenario1 :
    sanitize_track_list [scenario1_item] =
      ⟨[.dict [("id", .str "t1"), ("popularity", .int 80),
          ("album", .dict [("release_date", .str "1994-03-01")]),
          ("name", .str "İsimsiz Parça"),
          ("artists", .list [.dict [("id", PyVal.none),
            ("name", .str "Bilinmeyen Sanatçı")]])]], 0, 1⟩ ∧
    get_decade_distribution (sanitize_track_list [scenario1_item]).clean =
      ([("1990\x27ler", 1)], false) := by decide

/-- C9 counterexample: the histogram key is `"1990\x27ler"`, so it is
not the singleton map with key `"1990\x27s"` claimed by the spec. -/
theorem C9_counterexample :
    (get_decade_distribution (sanitize_track_list [scenario1_item]).clean).1 =
      [("1990\x27ler", 1)] ∧ ("1990\x27ler" : String) ≠ "1990\x27s" := by decide

/-!
## Claim C10 — placeholder albums land in the 1900s bucket
-/

theorem patch_track_album_bad (kvs : List (String × PyVal))
    (h : (dictGetD kvs "album" .none).truthy = false ∨
      (dictGetD kvs "album" .none).isDict = false) :
    dictGet (patch_track kvs).1 "album" = some placeholder_album := by
  simp only [patch_track, placeholder_album]
  split_ifs <;> simp_all [dictGetD_dictSet, dictGetD, dictGet_dictSet]

theorem dictGet_of_getD_ne (kvs : List (String × PyVal)) (k : String) (v : PyVal)
    (h : dictGetD kvs k .none = v) (hne : v ≠ .none) : dictGet kvs k = some v := by
  cases hg : dictGet kvs k with
  | none => rw [dictGetD, hg] at h; simp at h; exact absurd h.symm hne
  | some w => rw [dictGetD, hg] at h; simp at h; rw [h]

theorem safe_get_of_album_placeholder (pkvs : List (String × PyVal))
    (h : dictGet pkvs "album" = some placeholder_album) :
    safe_get_release_date (.dict pkvs) = .str "1900" := by
  simp [safe_get_release_date, dictGetD, h, placeholder_album, dictGet]

theorem decade_step_1900 (c : List (String × Nat)) (t : PyVal)
    (ht : safe_get_release_date t = .str "1900") :
    decade_step (c, false) t = (bump c "1900\x27ler", false) := by
  have h1 : (PyVal.str "1900").truthy = true := by decide
  have h2 : pyLen (PyVal.str "1900") = some 4 := by decide
  have h3 : (pySlice4 (PyVal.str "1900")).bind pyIntOf = some 1900 := by decide
  have h4 : decade_label 1900 = "1900\x27ler" := by decide
  simp [decade_step, ht, h1, h2, h3, h4]

theorem bump_iter_single (k : String) (m n : Nat) :
    (fun c => bump c k)^[n] [(k, m)] = [(k, m + n)] := by
  induction n generalizing m with
  | zero => rfl
  | succ n ih =>
      rw [Function.iterate_succ_apply]
      have : bump [(k, m)] k = [(k, m + 1)] := by simp [bump]
      rw [this, ih]
      have hmn : m + 1 + n = m + (n + 1) := by omega
      rw [hmn]

theorem bump_iter_nil (k : String) (n : Nat) :
    (fun c => bump c k)^[n] [] = if n = 0 then [] else [(k, n)] := by
  cases n with
  | zero => rfl
  | succ n =>
      rw [Function.iterate_succ_apply]
      have : bump ([] : List (String × Nat)) k = [(k, 1)] := by simp [bump]
      rw [this, bump_iter_single]
      simp [Nat.add_comm]

theorem decade_fold_1900 (l : List PyVal)
    (h : ∀ t ∈ l, safe_get_release_date t = .str "1900") (c : List (String × Nat)) :
    List.foldl decade_step (c, false) l =
      ((fun c2 => bump c2 "1900\x27ler")^[l.length] c, false) := by
  induction l generalizing c with
  | nil => rfl
  | cons x xs ih =>
      rw [List.foldl_cons, decade_step_1900 c x (h x (by simp)),
        ih (fun t ht => h t (by simp [ht]))]
      rw [List.length_cons, Function.iterate_succ_apply]

theorem filterMap_length_all_isSome {α β : Type} (f : α → Option β) (l : List α)
    (h : ∀ x ∈ l, (f x).isSome = true) : (l.filterMap f).length = l.length := by
  induction l with
  | nil => rfl
  | cons x xs ih =>
      have hx := h x (by simp)
      cases hf : f x with
      | none => rw [hf] at hx; simp at hx
      | some b =>
          rw [List.filterMap_cons, hf]
          simp [ih (fun y hy => h y (by simp [hy]))]

/-- C10: every raw item whose extracted track object lacks an `album`
key or carries a non-dict `album` value is given the placeholder album
with `release_date = "1900"`, and the decade histogram over a list of
such sanitized tracks puts every one of them in the 1900s bucket. -/
theorem C10_bad_album_bucketed (items : List PyVal)
    (h : ∀ item ∈ items,
      (sanitize_item item).isSome = true ∧ album_missing_or_nondict item = true) :
    (∀ t ∈ (sanitize_track_list items).clean, t.get "album" = placeholder_album) ∧
    (sanitize_track_list items).clean.length = items.length ∧
    (get_decade_distribution (sanitize_track_list items).clean).1 =
      (if items.length = 0 then [] else [("1900\x27ler", items.length)]) := by
  have hplace : ∀ t ∈ (sanitize_track_list items).clean,
      t.get "album" = placeholder_album := by
    intro t ht
    simp only [sanitize_track_list, List.mem_filterMap] at ht
    obtain ⟨item, hitem, hsan⟩ := ht
    cases hs : sanitize_item item with
    | none => rw [hs] at hsan; exact absurd hsan (by simp)
    | some tb =>
        rw [hs] at hsan
        obtain ⟨t2, b⟩ := tb
        simp at hsan; subst hsan
        obtain ⟨kvs, he, _, htd, _⟩ := sanitize_item_eq item t2 b hs
        subst htd
        have hbad := (h item hitem).2
        unfold album_missing_or_nondict at hbad
        rw [he] at hbad
        simp only [] at hbad
        have hcond : (dictGetD kvs "album" .none).truthy = false ∨
            (dictGetD kvs "album" .none).isDict = false := by
          cases hg : dictGet kvs "album" with
          | none => left; rw [dictGetD, hg]; rfl
          | some v =>
              right; simp only [hg] at hbad; simp at hbad
              rw [dictGetD, hg]; simpa using hbad
        have hpb := patch_track_album_bad kvs hcond
        show PyVal.get (.dict (patch_track kvs).1) "album" = placeholder_album
        simp [PyVal.get, dictGetD, hpb]
  have hlen : (sanitize_track_list items).clean.length = items.length := by
    apply filterMap_length_all_isSome
    intro item hi
    rcases h item hi with ⟨hsome, _⟩
    cases hs : sanitize_item item with
    | none => rw [hs] at hsome; simp at hsome
    | some tb => simp
  refine ⟨hplace, hlen, ?_⟩
  have hsg : ∀ t ∈ (sanitize_track_list items).clean,
      safe_get_release_date t = .str "1900" := by
    intro t ht
    have hp := hplace t ht
    cases t with
    | dict pkvs =>
        have hg : dictGet pkvs "album" = some placeholder_album :=
          dictGet_of_getD_ne pkvs "album" placeholder_album hp (by decide)
        exact safe_get_of_album_placeholder pkvs hg
    | none => exact absurd hp (by decide)
    | bool b => exact absurd hp (by cases b <;> decide)
    | int n => exact absurd hp (by simp [PyVal.get, placeholder_album])
    | str s => exact absurd hp (by simp [PyVal.get, placeholder_album])
    | list xs => exact absurd hp (by simp [PyVal.get, placeholder_album])
  have hfold := decade_fold_1900 _ hsg []
  unfold get_decade_distribution
  rw [hfold, bump_iter_nil, hlen]

/-- Witness for C10 at a concrete input. -/
theorem C10_witness :
    (∀ item ∈ c10WitnessInput,
      (sanitize_item item).isSome = true ∧ album_missing_or_nondict item = true) ∧
    ((∀ t ∈ (sanitize_track_list c10WitnessInput).clean,
        t.get "album" = placeholder_album) ∧
      (sanitize_track_list c10WitnessInput).clean.length = c10WitnessInput.length ∧
      (get_decade_distribution (sanitize_track_list c10WitnessInput).clean).1 =
        (if c10WitnessInput.length = 0 then []
         else [("1900\x27ler", c10WitnessInput.length)])) :=
  ⟨by decide, C10_bad_album_bucketed c10WitnessInput (by decide)⟩

/-!
## Claim C4 — decade histogram keys
-/

theorem bump_keys_subset {α : Type} [DecidableEq α] (c : List (α × Nat)) (k k2 : α)
    (h : k2 ∈ (bump c k).map Prod.fst) : k2 ∈ c.map Prod.fst ∨ k2 = k := by
  induction c with
  | nil => simp [bump] at h; exact Or.inr h
  | cons a rest ih =>
      obtain ⟨a1, n⟩ := a
      by_cases ha : a1 = k
      · subst ha
        simp [bump] at h
        rcases h with h | h
        · exact Or.inl (by simp [h])
        · exact Or.inl (by simp [h])
      · simp [bump, ha] at h
        rcases h with h | h
        · exact Or.inl (by simp [h])
        · rcases ih (by simpa using h) with h2 | h2
          · exact Or.inl (by simp; right; simpa using h2)
          · exact Or.inr h2

theorem decade_fold_crash (l : List PyVal) (c : List (String × Nat)) :
    List.foldl decade_step (c, true) l = (c, true) := by
  induction l with
  | nil => rfl
  | cons x xs ih => rw [List.foldl_cons]; exact ih

theorem decade_step_cases (c : List (String × Nat)) (t : PyVal) :
    decade_step (c, false) t = (c, false) ∨ decade_step (c, false) t = (c, true) ∨
    ∃ s y, safe_get_release_date t = .str s ∧ s.isEmpty = false ∧
      4 ≤ s.length ∧ pyIntParse (s.take 4) = some y ∧
      decade_step (c, false) t = (bump c (decade_label y), false) := by
  unfold decade_step
  simp only [Bool.false_eq_true, if_false]
  cases hD : safe_get_release_date t with
  | str s =>
      by_cases hT : (PyVal.str s).truthy = true
      · rw [hT]
        simp only [if_true]
        have hL : pyLen (PyVal.str s) = some s.length := rfl
        rw [hL]
        by_cases h4 : 4 ≤ s.length
        · simp only [h4, if_true]
          cases hP : (pySlice4 (PyVal.str s)).bind pyIntOf with
          | none => exact Or.inl (by first | rfl | trivial)
          | some y =>
              refine Or.inr (Or.inr ⟨s, y, rfl, ?_, h4, ?_, rfl⟩)
              · simpa [PyVal.truthy] using hT
              · simpa [pySlice4, pyIntOf] using hP
        · simp only [h4, if_false]
          exact Or.inl (by first | rfl | trivial)
      · simp only [Bool.not_eq_true] at hT
        rw [hT]
        simp only [Bool.false_eq_true, if_false]
        exact Or.inl (by first | rfl | trivial)
  | none => exact Or.inl (by first | rfl | trivial)
  | bool b =>
      cases b
      · exact Or.inl (by first | rfl | trivial)
      · exact Or.inr (Or.inl rfl)
  | int n =>
      by_cases hT : (PyVal.int n).truthy = true
      · rw [hT]; exact Or.inr (Or.inl rfl)
      · simp only [Bool.not_eq_true] at hT
        rw [hT]; exact Or.inl (by first | rfl | trivial)
  | list xs =>
      by_cases hT : (PyVal.list xs).truthy = true
      · rw [hT]
        simp only [if_true]
        have hL : pyLen (PyVal.list xs) = some xs.length := rfl
        rw [hL]
        by_cases h4 : 4 ≤ xs.length
        · simp only [h4, if_true]
          have hP : (pySlice4 (PyVal.list xs)).bind pyIntOf = Option.none := by
            simp [pySlice4, pyIntOf]
          rw [hP]
          exact Or.inl (by first | rfl | trivial)
        · simp only [h4, if_false]; exact Or.inl (by first | rfl | trivial)
      · simp only [Bool.not_eq_true] at hT
        rw [hT]; simp only [Bool.false_eq_true, if_false]; exact Or.inl (by first | rfl | trivial)
  | dict kvs =>
      by_cases hT : (PyVal.dict kvs).truthy = true
      · rw [hT]
        simp only [if_true]
        have hL : pyLen (PyVal.dict kvs) = some kvs.length := rfl
        rw [hL]
        by_cases h4 : 4 ≤ kvs.length
        · simp only [h4, if_true]
          have hP : (pySlice4 (PyVal.dict kvs)).bind pyIntOf = Option.none := by
            simp [pySlice4]
          rw [hP]
          exact Or.inl (by first | rfl | trivial)
        · simp only [h4, if_false]; exact Or.inl (by first | rfl | trivial)
      · simp only [Bool.not_eq_true] at hT
        rw [hT]; simp only [Bool.false_eq_true, if_false]; exact Or.inl (by first | rfl | trivial)

theorem decade_fold_keys (l : List PyVal) (c : List (String × Nat))
    (k : String) (hk : k ∈ (List.foldl decade_step (c, false) l).1.map Prod.fst) :
    k ∈ c.map Prod.fst ∨
    ∃ t ∈ l, ∃ s y, safe_get_release_date t = .str s ∧ s.isEmpty = false ∧
      4 ≤ s.length ∧ pyIntParse (s.take 4) = some y ∧ k = decade_label y := by
  induction l generalizing c with
  | nil => exact Or.inl hk
  | cons x xs ih =>
      rw [List.foldl_cons] at hk
      rcases decade_step_cases c x with hc | hc | ⟨s, y, hs, he, h4, hp, hc⟩
      · rw [hc] at hk
        rcases ih c hk with h | ⟨t, ht, w⟩
        · exact Or.inl h
        · exact Or.inr ⟨t, by simp [ht], w⟩
      · rw [hc, decade_fold_crash] at hk
        exact Or.inl hk
      · rw [hc] at hk
        rcases ih (bump c (decade_label y)) hk with h | ⟨t, ht, w⟩
        · rcases bump_keys_subset c (decade_label y) k h with h2 | h2
          · exact Or.inl h2
          · exact Or.inr ⟨x, by simp, s, y, hs, he, h4, hp, h2⟩
        · exact Or.inr ⟨t, by simp [ht], w⟩

/-- C4 (corrected, scoped to appv2's `get_decade_distribution`): every
key of the decade histogram derives from a track whose release date is a
non-empty string of length at least 4 whose first 4 characters parse as
an integer year, and the key is the `(year // 10) * 10` decade label.
The legacy app.py version has no length-4 guard — see the
counterexample. -/
theorem C4_decade_keys (tracks : List PyVal) :
    ∀ k ∈ (get_decade_distribution tracks).1.map Prod.fst,
      ∃ t ∈ tracks, ∃ s y, safe_get_release_date t = .str s ∧ s.isEmpty = false ∧
        4 ≤ s.length ∧ pyIntParse (s.take 4) = some y ∧ k = decade_label y := by
  intro k hk
  unfold get_decade_distribution at hk
  rcases decade_fold_keys tracks [] k hk with h | h
  · simp at h
  · exact h

/-- Witness for C4 at a concrete input. -/
theorem C4_witness :
    ("1990\x27ler" ∈ (get_decade_distribution c4WitnessInput).1.map Prod.fst) ∧
    (∃ t ∈ c4WitnessInput, ∃ s y, safe_get_release_date t = .str s ∧
      s.isEmpty = false ∧ 4 ≤ s.length ∧ pyIntParse (s.take 4) = some y ∧
      "1990\x27ler" = decade_label y) :=
  ⟨by decide, C4_decade_keys c4WitnessInput "1990\x27ler" (by decide)⟩

/-- C4 counterexample: app.py's legacy `get_decade_distribution`
buckets the 2-character release date `"99"` (as `"90\x27ler"`), so the
claim is false for that cited implementation. -/
theorem C4_counterexample :
    app_get_decade_distribution c4CexInput = ([("90\x27ler", 1)], false) ∧
    (∀ t ∈ c4CexInput, app_release_date t = some (.str "99")) ∧
    ¬ 4 ≤ ("99" : String).length := by decide

/-!
## Claim C7 — popularity statistics absent iff no truthy popularity
-/

theorem pop_values_eq (tracks : List PyVal) (hd : ∀ t ∈ tracks, t.isDict = true) :
    pop_values tracks = some (truthy_pops tracks) := by
  induction tracks with
  | nil => rfl
  | cons t ts ih =>
      have ht := hd t (by simp)
      cases t with
      | dict kvs =>
          have ihe := ih (fun x hx => hd x (by simp [hx]))
          have hred : pop_values (PyVal.dict kvs :: ts) =
              (match pop_values ts with
               | some rest =>
                   some (if (dictGetD kvs "popularity" PyVal.none).truthy
                         then dictGetD kvs "popularity" PyVal.none :: rest else rest)
               | Option.none => Option.none) := rfl
          rw [hred, ihe]
          by_cases hp : (dictGetD kvs "popularity" .none).truthy = true
          · have hp2 : ((PyVal.dict kvs).get "popularity").truthy = true := hp
            simp [truthy_pops, List.filter_cons, hp, hp2, PyVal.get]
          · simp only [Bool.not_eq_true] at hp
            have hp2 : ((PyVal.dict kvs).get "popularity").truthy = false := hp
            simp [truthy_pops, List.filter_cons, hp, hp2, PyVal.get]
      | none => simp [PyVal.isDict] at ht
      | bool b => simp [PyVal.isDict] at ht
      | int n => simp [PyVal.isDict] at ht
      | str s => simp [PyVal.isDict] at ht
      | list xs => simp [PyVal.isDict] at ht

theorem analyze_popularity_eq (tracks : List PyVal)
    (hd : ∀ t ∈ tracks, t.isDict = true) :
    analyze_popularity tracks =
      (if (truthy_pops tracks).isEmpty = true then some Option.none
       else
         match (truthy_pops tracks).mapM pyNumber with
         | some ns => some (some (pop_stats ns))
         | Option.none => Option.none) := by
  unfold analyze_popularity
  rw [pop_values_eq tracks hd]
  all_goals rfl

/-- C7: `analyze_popularity` returns `None` exactly when no input track
has a truthy `popularity` value; otherwise the returned stats are
`pop_stats` (avg, max, min, median) computed over exactly the
popularity values of the tracks with truthy popularity. -/
theorem C7_popularity_absent_iff (tracks : List PyVal)
    (hd : ∀ t ∈ tracks, t.isDict = true) :
    (analyze_popularity tracks = some Option.none ↔
      ∀ t ∈ tracks, (t.get "popularity").truthy = false) ∧
    (∀ st, analyze_popularity tracks = some (some st) →
      ∃ ns, (truthy_pops tracks).mapM pyNumber = some ns ∧ st = pop_stats ns) := by
  have heq := analyze_popularity_eq tracks hd
  have hempty : (truthy_pops tracks).isEmpty = true ↔
      ∀ t ∈ tracks, (t.get "popularity").truthy = false := by
    constructor
    · intro he t ht
      have hnil : truthy_pops tracks = [] := by
        cases hl : truthy_pops tracks with
        | nil => rfl
        | cons a as => rw [hl] at he; simp at he
      have hf : tracks.filter (fun t => (t.get "popularity").truthy) = [] :=
        List.map_eq_nil.mp hnil
      by_contra hc
      simp only [Bool.not_eq_false] at hc
      have : t ∈ tracks.filter (fun t => (t.get "popularity").truthy) :=
        List.mem_filter.mpr ⟨ht, hc⟩
      rw [hf] at this
      simp at this
    · intro h
      have hf : tracks.filter (fun t => (t.get "popularity").truthy) = [] :=
        List.filter_eq_nil.mpr (fun t ht => by simp [h t ht])
      unfold truthy_pops
      rw [hf]
      rfl
  constructor
  · constructor
    · intro h
      rw [heq] at h
      by_cases he : (truthy_pops tracks).isEmpty = true
      · exact hempty.mp he
      · exfalso
        simp only [he, Bool.false_eq_true, if_false] at h
        cases hm : (truthy_pops tracks).mapM pyNumber with
        | none => rw [hm] at h; simp at h
        | some ns => rw [hm] at h; simp at h
    · intro h
      rw [heq, if_pos (hempty.mpr h)]
  · intro st h
    rw [heq] at h
    by_cases he : (truthy_pops tracks).isEmpty = true
    · rw [if_pos he] at h
      simp at h
    · simp only [he, Bool.false_eq_true, if_false] at h
      cases hm : (truthy_pops tracks).mapM pyNumber with
      | none => rw [hm] at h; simp at h
      | some ns =>
          rw [hm] at h
          simp at h
          exact ⟨ns, rfl, h.symm⟩

/-- Witness for C7. -/
theorem C7_witness :
    (∀ t ∈ c7WitnessInput, t.isDict = true) ∧
    ((analyze_popularity c7WitnessInput = some Option.none ↔
        ∀ t ∈ c7WitnessInput, (t.get "popularity").truthy = false) ∧
      (∀ st, analyze_popularity c7WitnessInput = some (some st) →
        ∃ ns, (truthy_pops c7WitnessInput).mapM pyNumber = some ns ∧
          st = pop_stats ns)) :=
  ⟨by decide, C7_popularity_absent_iff c7WitnessInput (by decide)⟩

/-!
## Claims C3 and C8 — the recommendation reconciler
-/

/-- C8: within one suggestion, Phase 2 is attempted exactly when Phase 1
left `track_uri` falsy (its attempt log grows by `[(i,1)]` on a Phase-1
hit and by `[(i,1),(i,2)]` otherwise), and an exception in either phase
(`SearchRes.err`) is handled identically to an empty result — the
per-suggestion step is a total function, so nothing propagates out of
the loop. -/
theorem C8_phase2_iff_phase1_miss (i : Nat) (r1 r2 : SearchRes) (s : ReconcileState) :
    (step_song i r1 r2 s).search_attempts =
      s.search_attempts ++ (if r1.hit then [(i, 1)] else [(i, 1), (i, 2)]) ∧
    step_song i .err r2 s = step_song i .noMatch r2 s ∧
    step_song i r1 .err s = step_song i r1 .noMatch s := by
  refine ⟨?_, ?_, ?_⟩
  · cases r1 <;> cases r2 <;>
      simp [step_song, SearchRes.hit, apply_ite ReconcileState.search_attempts] <;>
      split_ifs <;> simp_all [apply_ite ReconcileState.search_attempts]
  · cases r2 <;> simp [step_song, SearchRes.hit]
  · cases r1 <;> simp [step_song, SearchRes.hit]

theorem step_song_uris_count (i : Nat) (r1 r2 : SearchRes) (s : ReconcileState)
    (h : s.track_uris.length = s.songs_found_count) :
    (step_song i r1 r2 s).track_uris.length = (step_song i r1 r2 s).songs_found_count ∧
    (step_song i r1 r2 s).songs_found_count ≤ s.songs_found_count + 1 ∧
    s.songs_found_count ≤ (step_song i r1 r2 s).songs_found_count := by
  unfold step_song
  cases r1 <;> cases r2 <;> simp only [SearchRes.hit] <;>
    repeat' (first | (split_ifs <;> simp_all) | simp_all | omega)

theorem search_from_break (p1 p2 : Nat → SearchRes) (target : Nat) (i n : Nat)
    (s : ReconcileState) (h : target ≤ s.songs_found_count) :
    search_songs_from p1 p2 target i n s = s := by
  cases n with
  | zero => rfl
  | succ m => simp [search_songs_from, h]

theorem search_from_inv (p1 p2 : Nat → SearchRes) (target : Nat) :
    ∀ (n i : Nat) (s : ReconcileState),
      s.track_uris.length = s.songs_found_count → s.songs_found_count ≤ target →
      (search_songs_from p1 p2 target i n s).track_uris.length =
        (search_songs_from p1 p2 target i n s).songs_found_count ∧
      (search_songs_from p1 p2 target i n s).songs_found_count ≤ target := by
  intro n
  induction n with
  | zero => intro i s h1 h2; exact ⟨h1, h2⟩
  | succ m ih =>
      intro i s h1 h2
      by_cases hb : target ≤ s.songs_found_count
      · simp only [search_songs_from, hb, if_true]
        exact ⟨h1, h2⟩
      · simp only [search_songs_from, hb, if_false]
        have hlt : s.songs_found_count < target := Nat.lt_of_not_le hb
        obtain ⟨hu, hup, _⟩ := step_song_uris_count i (p1 i) (p2 i) s h1
        exact ih (i + 1) _ hu (Nat.le_trans hup hlt)

theorem search_from_split (p1 p2 : Nat → SearchRes) (target : Nat) :
    ∀ (m n i : Nat) (s : ReconcileState),
      search_songs_from p1 p2 target i (m + n) s =
        search_songs_from p1 p2 target (i + m) n (search_songs_from p1 p2 target i m s) := by
  intro m
  induction m with
  | zero =>
      intro n i s
      rw [Nat.zero_add, Nat.add_zero]
      rfl
  | succ k ih =>
      intro n i s
      by_cases hb : target ≤ s.songs_found_count
      · rw [search_from_break p1 p2 target i (k + 1) s hb,
          search_from_break p1 p2 target i (k + 1 + n) s hb,
          search_from_break p1 p2 target (i + (k + 1)) n s hb]
      · have e1 : k + 1 + n = (k + n) + 1 := by omega
        rw [e1]
        simp only [search_songs_from, hb, if_false]
        rw [ih n (i + 1) (step_song i (p1 i) (p2 i) s)]
        have e2 : i + 1 + k = i + (k + 1) := by omega
        rw [e2]

/-- C3: the reconciler resolves at most `target` track URIs, and as soon
as the resolved count reaches the target after some prefix of the
suggestions, processing the remaining suggestions issues no further
search attempt (the attempt log is already final). -/
theorem C3_reconciler_cap (p1 p2 : Nat → SearchRes) (target n : Nat) :
    (create_spotify_playlist_search p1 p2 target n).track_uris.length ≤ target ∧
    ∀ k, k ≤ n →
      target ≤ (create_spotify_playlist_search p1 p2 target k).songs_found_count →
      (create_spotify_playlist_search p1 p2 target n).search_attempts =
        (create_spotify_playlist_search p1 p2 target k).search_attempts := by
  constructor
  · obtain ⟨h1, h2⟩ := search_from_inv p1 p2 target n 0 ReconcileState.init rfl
      (Nat.zero_le _)
    unfold create_spotify_playlist_search
    rw [h1]
    exact h2
  · intro k hk hreach
    have hsplit : create_spotify_playlist_search p1 p2 target n =
        search_songs_from p1 p2 target (0 + k) (n - k)
          (create_spotify_playlist_search p1 p2 target k) := by
      unfold create_spotify_playlist_search
      rw [← search_from_split p1 p2 target k (n - k) 0 ReconcileState.init]
      congr 1
      omega
    rw [hsplit, search_from_break p1 p2 target (0 + k) (n - k) _ hreach]

/-- Witness for C3. -/
theorem C3_witness :
    (create_spotify_playlist_search c3P1 c3P2 2 5).track_uris.length ≤ 2 ∧
    ((2 : Nat) ≤ 5 ∧
      2 ≤ (create_spotify_playlist_search c3P1 c3P2 2 2).songs_found_count ∧
      (create_spotify_playlist_search c3P1 c3P2 2 5).search_attempts =
        (create_spotify_playlist_search c3P1 c3P2 2 2).search_attempts) :=
  ⟨(C3_reconciler_cap c3P1 c3P2 2 5).1, by decide, by decide,
   (C3_reconciler_cap c3P1 c3P2 2 5).2 2 (by decide) (by decide)⟩

/-!
## Claim C2 — genre analysis looks each artist up at most once
-/

theorem genre_fold_fields (aname : PyVal) (gs : List String) (st : GenreState) :
    (gs.foldl (genre_update aname) st).artist_counter = st.artist_counter ∧
    (gs.foldl (genre_update aname) st).processed_artists = st.processed_artists ∧
    (gs.foldl (genre_update aname) st).lookup_calls = st.lookup_calls := by
  induction gs generalizing st with
  | nil => exact ⟨rfl, rfl, rfl⟩
  | cons g gs ih =>
      rw [List.foldl_cons]
      exact ih (genre_update aname st g)

theorem process_artist_calls (lookup : PyVal → Option (List String)) (s : GenreState)
    (a : PyVal) :
    ((process_artist lookup s a).processed_artists = s.processed_artists ∧
      (process_artist lookup s a).lookup_calls = s.lookup_calls) ∨
    (∃ aid, (process_artist lookup s a).processed_artists = s.processed_artists ++ [aid] ∧
      (process_artist lookup s a).lookup_calls = s.lookup_calls ++ [aid] ∧
      aid ∉ s.processed_artists) := by
  cases a with
  | dict akvs =>
      unfold process_artist
      by_cases hid : (dictGetD akvs "id" .none).truthy = true
      · simp only [hid, if_true]
        by_cases hmem : dictGetD akvs "id" .none ∈ s.processed_artists
        · simp only [hmem, if_true]
          exact Or.inl ⟨by first | rfl | trivial, by first | rfl | trivial⟩
        · simp only [hmem, if_false]
          cases hl : lookup (dictGetD akvs "id" .none) with
          | none => exact Or.inr ⟨_, rfl, rfl, hmem⟩
          | some genres =>
              obtain ⟨_, hp, hc⟩ := genre_fold_fields
                (dictGetD akvs "name" (.str "Unknown")) genres _
              exact Or.inr ⟨_, by rw [hp], by rw [hc], hmem⟩
      · simp only [Bool.not_eq_true] at hid
        simp only [hid, Bool.false_eq_true, if_false]
        exact Or.inl ⟨by first | rfl | trivial, by first | rfl | trivial⟩
  | none => exact Or.inl ⟨rfl, rfl⟩
  | bool b => exact Or.inl ⟨rfl, rfl⟩
  | int n => exact Or.inl ⟨rfl, rfl⟩
  | str s2 => exact Or.inl ⟨rfl, rfl⟩
  | list xs => exact Or.inl ⟨rfl, rfl⟩

theorem process_artist_inv (lookup : PyVal → Option (List String)) (s : GenreState)
    (a : PyVal) (h1 : s.processed_artists = s.lookup_calls)
    (h2 : s.lookup_calls.Nodup) :
    (process_artist lookup s a).processed_artists =
      (process_artist lookup s a).lookup_calls ∧
    (process_artist lookup s a).lookup_calls.Nodup := by
  rcases process_artist_calls lookup s a with ⟨hp, hc⟩ | ⟨aid, hp, hc, hmem⟩
  · rw [hp, hc, h1]
    exact ⟨rfl, h2⟩
  · rw [hp, hc, h1]
    refine ⟨rfl, ?_⟩
    rw [h1] at hmem
    simp [List.nodup_append, h2, hmem]

theorem artists_fold_inv (lookup : PyVal → Option (List String)) (arts : List PyVal) :
    ∀ (s : GenreState), s.processed_artists = s.lookup_calls → s.lookup_calls.Nodup →
    (arts.foldl (process_artist lookup) s).processed_artists =
      (arts.foldl (process_artist lookup) s).lookup_calls ∧
    (arts.foldl (process_artist lookup) s).lookup_calls.Nodup := by
  induction arts with
  | nil => intro s h1 h2; exact ⟨h1, h2⟩
  | cons a rest ih =>
      intro s h1 h2
      rw [List.foldl_cons]
      obtain ⟨g1, g2⟩ := process_artist_inv lookup s a h1 h2
      exact ih _ g1 g2

theorem process_track_inv (lookup : PyVal → Option (List String)) (s : GenreState)
    (t : PyVal) (s2 : GenreState) (h : process_track lookup s t = some s2)
    (h1 : s.processed_artists = s.lookup_calls) (h2 : s.lookup_calls.Nodup) :
    s2.processed_artists = s2.lookup_calls ∧ s2.lookup_calls.Nodup := by
  cases t with
  | dict kvs =>
      simp only [process_track] at h
      cases hi : pyIterate (dictGetD kvs "artists" (.list [])) with
      | none => rw [hi] at h; exact absurd h (by simp)
      | some arts =>
          rw [hi] at h
          simp at h
          subst h
          exact artists_fold_inv lookup arts s h1 h2
  | none => exact absurd h (by simp [process_track])
  | bool b => exact absurd h (by simp [process_track])
  | int n => exact absurd h (by simp [process_track])
  | str s3 => exact absurd h (by simp [process_track])
  | list xs => exact absurd h (by simp [process_track])

theorem genre_fold_inv (lookup : PyVal → Option (List String)) (tracks : List PyVal) :
    ∀ (s : GenreState) (f : Bool),
      s.processed_artists = s.lookup_calls → s.lookup_calls.Nodup →
      (tracks.foldl (genre_track_step lookup) (s, f)).1.processed_artists =
        (tracks.foldl (genre_track_step lookup) (s, f)).1.lookup_calls ∧
      (tracks.foldl (genre_track_step lookup) (s, f)).1.lookup_calls.Nodup := by
  induction tracks with
  | nil => intro s f h1 h2; exact ⟨h1, h2⟩
  | cons t ts ih =>
      intro s f h1 h2
      rw [List.foldl_cons]
      cases f with
      | true => exact ih s true h1 h2
      | false =>
          unfold genre_track_step
          simp only [Bool.false_eq_true, if_false]
          cases hp : process_track lookup s t with
          | none => exact ih s true h1 h2
          | some s2 =>
              obtain ⟨g1, g2⟩ := process_track_inv lookup s t s2 hp h1 h2
              exact ih s2 false g1 g2

/-- C2 part 1 packaged over the whole run. -/
theorem analyze_genres_calls_nodup (lookup : PyVal → Option (List String))
    (tracks : List PyVal) : (analyze_genres lookup tracks).1.lookup_calls.Nodup :=
  (genre_fold_inv lookup tracks GenreState.init false rfl List.nodup_nil).2

theorem bump_sum {α : Type} [DecidableEq α] (c : List (α × Nat)) (k : α) :
    ((bump c k).map Prod.snd).sum = (c.map Prod.snd).sum + 1 := by
  induction c with
  | nil => simp [bump]
  | cons a rest ih =>
      obtain ⟨k2, n⟩ := a
      by_cases h : k2 = k
      · subst h; simp [bump]; omega
      · simp [bump, h, ih]; omega

theorem process_artist_sum (lookup : PyVal → Option (List String)) (s : GenreState)
    (a : PyVal) :
    ((process_artist lookup s a).artist_counter.map Prod.snd).sum =
      (s.artist_counter.map Prod.snd).sum + (if qual_artist a then 1 else 0) := by
  cases a with
  | dict akvs =>
      unfold process_artist qual_artist
      by_cases hid : (dictGetD akvs "id" .none).truthy = true
      · simp only [hid, if_true]
        by_cases hmem : dictGetD akvs "id" .none ∈ s.processed_artists
        · simp only [hmem, if_true]
          exact bump_sum _ _
        · simp only [hmem, if_false]
          cases hl : lookup (dictGetD akvs "id" .none) with
          | none => exact bump_sum _ _
          | some genres =>
              obtain ⟨hcnt, _, _⟩ := genre_fold_fields
                (dictGetD akvs "name" (.str "Unknown")) genres _
              rw [hcnt]
              exact bump_sum _ _
      · simp only [Bool.not_eq_true] at hid
        simp only [hid, Bool.false_eq_true, if_false]
        simp
  | none => simp [process_artist, qual_artist]
  | bool b => simp [process_artist, qual_artist]
  | int n => simp [process_artist, qual_artist]
  | str s2 => simp [process_artist, qual_artist]
  | list xs => simp [process_artist, qual_artist]

theorem artists_fold_sum (lookup : PyVal → Option (List String)) (arts : List PyVal) :
    ∀ s : GenreState,
      ((arts.foldl (process_artist lookup) s).artist_counter.map Prod.snd).sum =
        (s.artist_counter.map Prod.snd).sum + arts.countP qual_artist := by
  induction arts with
  | nil => intro s; simp
  | cons a rest ih =>
      intro s
      rw [List.foldl_cons, ih (process_artist lookup s a), process_artist_sum]
      rw [List.countP_cons]
      by_cases h : qual_artist a = true <;> simp [h] <;> omega

theorem process_track_sum (lookup : PyVal → Option (List String)) (s : GenreState)
    (t : PyVal) (s2 : GenreState) (h : process_track lookup s t = some s2) :
    (s2.artist_counter.map Prod.snd).sum =
      (s.artist_counter.map Prod.snd).sum + track_appearances t := by
  cases t with
  | dict kvs =>
      simp only [process_track] at h
      cases hi : pyIterate (dictGetD kvs "artists" (.list [])) with
      | none => rw [hi] at h; exact absurd h (by simp)
      | some arts =>
          rw [hi] at h
          simp at h
          subst h
          have hta : track_appearances (PyVal.dict kvs) =
              (match pyIterate (dictGetD kvs "artists" (.list [])) with
               | some arts2 => arts2.countP qual_artist
               | Option.none => 0) := rfl
          rw [hta, hi]
          exact artists_fold_sum lookup arts s
  | none => exact absurd h (by simp [process_track])
  | bool b => exact absurd h (by simp [process_track])
  | int n => exact absurd h (by simp [process_track])
  | str s3 => exact absurd h (by simp [process_track])
  | list xs => exact absurd h (by simp [process_track])

theorem genre_fold_crash (lookup : PyVal → Option (List String)) (tracks : List PyVal)
    (s : GenreState) :
    tracks.foldl (genre_track_step lookup) (s, true) = (s, true) := by
  induction tracks with
  | nil => rfl
  | cons t ts ih => rw [List.foldl_cons]; exact ih

theorem genre_fold_sum (lookup : PyVal → Option (List String)) (tracks : List PyVal) :
    ∀ s : GenreState,
      (tracks.foldl (genre_track_step lookup) (s, false)).2 = false →
      ((tracks.foldl (genre_track_step lookup) (s, false)).1.artist_counter.map
        Prod.snd).sum =
        (s.artist_counter.map Prod.snd).sum + (tracks.map track_appearances).sum := by
  induction tracks with
  | nil => intro s _; simp
  | cons t ts ih =>
      intro s hf
      rw [List.foldl_cons] at hf ⊢
      have hstep : genre_track_step lookup (s, false) t =
          (match process_track lookup s t with
           | some s2 => (s2, false)
           | Option.none => (s, true)) := rfl
      cases hp : process_track lookup s t with
      | none =>
          rw [hstep, hp] at hf
          rw [genre_fold_crash] at hf
          simp at hf
      | some s2 =>
          rw [hstep, hp] at hf ⊢
          rw [ih s2 hf, process_track_sum lookup s t s2 hp]
          simp [List.map_cons, List.sum_cons]
          omega

/-- C2 (corrected, scoped to appv2's `analyze_genres`): in one run the
external artist lookup is called on a duplicate-free sequence of artist
ids (at most once per distinct id), while the occurrence counter's total
equals the number of qualifying artist appearances across all tracks
whenever the run completes without crashing.  The legacy app.py version
has no processed-artist set — see the counterexample. -/
theorem C2_lookup_once_per_artist (lookup : PyVal → Option (List String))
    (tracks : List PyVal) :
    (analyze_genres lookup tracks).1.lookup_calls.Nodup ∧
    ((analyze_genres lookup tracks).2 = false →
      ((analyze_genres lookup tracks).1.artist_counter.map Prod.snd).sum =
        (tracks.map track_appearances).sum) := by
  constructor
  · exact analyze_genres_calls_nodup lookup tracks
  · intro hf
    unfold analyze_genres at hf ⊢
    rw [genre_fold_sum lookup tracks GenreState.init hf]
    simp [GenreState.init]

/-- Witness for C2. -/
theorem C2_witness :
    (analyze_genres c2Lookup c2Tracks).1.lookup_calls.Nodup ∧
    (analyze_genres c2Lookup c2Tracks).2 = false ∧
    ((analyze_genres c2Lookup c2Tracks).1.artist_counter.map Prod.snd).sum =
      (c2Tracks.map track_appearances).sum :=
  ⟨(C2_lookup_once_per_artist c2Lookup c2Tracks).1, by decide,
   (C2_lookup_once_per_artist c2Lookup c2Tracks).2 (by decide)⟩

/-- C2 counterexample: the legacy app.py `analyze_genres` has no
processed-artist set, so one artist id appearing on two tracks is looked
up twice in a single run. -/
theorem C2_counterexample :
    (app_analyze_genres c2Lookup c2Tracks).1.lookup_calls = [.str "a", .str "a"] ∧
    ¬ (app_analyze_genres c2Lookup c2Tracks).1.lookup_calls.Nodup := by decide

/-!
## Claim C6 — merging sources de-duplicates by id
-/

theorem mem_dict_insert_keys (d : List (PyVal × PyVal)) (k v x : PyVal) :
    x ∈ (dict_insert d k v).map Prod.fst ↔ x ∈ d.map Prod.fst ∨ x = k := by
  induction d with
  | nil => simp [dict_insert]
  | cons a rest ih =>
      obtain ⟨k2, v2⟩ := a
      by_cases h : k2 = k
      · subst h
        have he : dict_insert ((k2, v2) :: rest) k2 v = (k2, v) :: rest := by
          simp [dict_insert]
        rw [he]
        simp
        tauto
      · have he : dict_insert ((k2, v2) :: rest) k v =
            (k2, v2) :: dict_insert rest k v := by
          simp [dict_insert, h]
        rw [he]
        simp [ih]
        tauto

theorem dict_insert_keys_nodup (d : List (PyVal × PyVal)) (k v : PyVal)
    (h : (d.map Prod.fst).Nodup) : ((dict_insert d k v).map Prod.fst).Nodup := by
  induction d with
  | nil => simp [dict_insert]
  | cons a rest ih =>
      obtain ⟨k2, v2⟩ := a
      rw [List.map_cons, List.nodup_cons] at h
      obtain ⟨h1, h2⟩ := h
      by_cases hk : k2 = k
      · subst hk
        have he : dict_insert ((k2, v2) :: rest) k2 v = (k2, v) :: rest := by
          simp [dict_insert]
        rw [he, List.map_cons, List.nodup_cons]
        exact ⟨h1, h2⟩
      · have he : dict_insert ((k2, v2) :: rest) k v =
            (k2, v2) :: dict_insert rest k v := by
          simp [dict_insert, hk]
        rw [he, List.map_cons, List.nodup_cons]
        constructor
        · intro hmem
          rcases (mem_dict_insert_keys rest k v k2).mp hmem with hh | hh
          · exact h1 hh
          · exact hk hh
        · exact ih h2

theorem dict_insert_vals (d : List (PyVal × PyVal)) (k v : PyVal)
    (P : PyVal × PyVal → Prop) (hd : ∀ p ∈ d, P p) (hkv : P (k, v)) :
    ∀ p ∈ dict_insert d k v, P p := by
  induction d with
  | nil =>
      intro p hp
      simp [dict_insert] at hp
      subst hp
      exact hkv
  | cons a rest ih =>
      obtain ⟨k2, v2⟩ := a
      by_cases hk : k2 = k
      · subst hk
        have he : dict_insert ((k2, v2) :: rest) k2 v = (k2, v) :: rest := by
          simp [dict_insert]
        rw [he]
        intro p hp
        rcases List.mem_cons.mp hp with hp | hp
        · subst hp; exact hkv
        · exact hd p (by simp [hp])
      · have he : dict_insert ((k2, v2) :: rest) k v =
            (k2, v2) :: dict_insert rest k v := by
          simp [dict_insert, hk]
        rw [he]
        intro p hp
        rcases List.mem_cons.mp hp with hp | hp
        · subst hp; exact hd (k2, v2) (by simp)
        · exact ih (fun q hq => hd q (by simp [hq])) p hp

theorem add_track_eq (d : List (PyVal × PyVal)) (t : PyVal)
    (hwf : t.truthy = true → t.isDict = true) :
    add_track d t = some (match track_qual_id t with
      | some k => dict_insert d k t
      | Option.none => d) := by
  cases ht : t.truthy with
  | false =>
      unfold add_track track_qual_id
      rw [ht]
      simp
  | true =>
      have hd := hwf ht
      cases t with
      | dict kvs =>
          unfold add_track track_qual_id
          rw [ht]
          simp only [if_true]
          by_cases hid : (dictGetD kvs "id" .none).truthy = true
          · simp [hid]
          · simp only [Bool.not_eq_true] at hid
            simp [hid]
      | none => simp [PyVal.isDict] at hd
      | bool b => simp [PyVal.isDict] at hd
      | int n => simp [PyVal.isDict] at hd
      | str s => simp [PyVal.isDict] at hd
      | list xs => simp [PyVal.isDict] at hd

theorem scan_tracks_eq (ts : List PyVal) :
    ∀ d, (∀ t ∈ ts, t.truthy = true → t.isDict = true) →
      scan_tracks d ts = (insert_fold d ts, false) := by
  induction ts with
  | nil => intro d _; rfl
  | cons t ts ih =>
      intro d hwf
      have ha := add_track_eq d t (hwf t (by simp))
      have hred : scan_tracks d (t :: ts) =
          (match add_track d t with
           | some d2 => scan_tracks d2 ts
           | Option.none => (d, true)) := rfl
      rw [hred, ha]
      have hredf : insert_fold d (t :: ts) =
          insert_fold (match track_qual_id t with
            | some k => dict_insert d k t
            | Option.none => d) ts := by
        cases hq : track_qual_id t <;> simp [insert_fold, hq]
      rw [hredf]
      exact ih _ (fun u hu => hwf u (by simp [hu]))

theorem insert_fold_keys (ts : List PyVal) :
    ∀ (d : List (PyVal × PyVal)) (x : PyVal),
      (x ∈ (insert_fold d ts).map Prod.fst ↔ x ∈ d.map Prod.fst ∨ x ∈ qual_ids ts) := by
  induction ts with
  | nil => intro d x; simp [insert_fold, qual_ids]
  | cons t ts ih =>
      intro d x
      cases hq : track_qual_id t with
      | none =>
          have h1 : insert_fold d (t :: ts) = insert_fold d ts := by
            simp [insert_fold, hq]
          have h2 : qual_ids (t :: ts) = qual_ids ts := by
            simp [qual_ids, List.filterMap_cons, hq]
          rw [h1, h2]
          exact ih d x
      | some k =>
          have h1 : insert_fold d (t :: ts) = insert_fold (dict_insert d k t) ts := by
            simp [insert_fold, hq]
          have h2 : qual_ids (t :: ts) = k :: qual_ids ts := by
            simp [qual_ids, List.filterMap_cons, hq]
          rw [h1, h2]
          rw [ih (dict_insert d k t) x]
          rw [mem_dict_insert_keys]
          simp
          tauto

theorem insert_fold_nodup (ts : List PyVal) :
    ∀ d : List (PyVal × PyVal), (d.map Prod.fst).Nodup →
      ((insert_fold d ts).map Prod.fst).Nodup := by
  induction ts with
  | nil => intro d h; exact h
  | cons t ts ih =>
      intro d h
      cases hq : track_qual_id t with
      | none =>
          have h1 : insert_fold d (t :: ts) = insert_fold d ts := by
            simp [insert_fold, hq]
          rw [h1]; exact ih d h
      | some k =>
          have h1 : insert_fold d (t :: ts) = insert_fold (dict_insert d k t) ts := by
            simp [insert_fold, hq]
          rw [h1]
          exact ih _ (dict_insert_keys_nodup d k t h)

theorem insert_fold_vals (ts : List PyVal) (P : PyVal × PyVal → Prop)
    (hq : ∀ t ∈ ts, ∀ k, track_qual_id t = some k → P (k, t)) :
    ∀ d : List (PyVal × PyVal), (∀ p ∈ d, P p) → ∀ p ∈ insert_fold d ts, P p := by
  induction ts with
  | nil => intro d hd; exact hd
  | cons t ts ih =>
      intro d hd
      have hqt : ∀ k, track_qual_id t = some k → P (k, t) :=
        fun k hk => hq t (by simp) k hk
      have hqts : ∀ u ∈ ts, ∀ k, track_qual_id u = some k → P (k, u) :=
        fun u hu k hk => hq u (List.mem_cons_of_mem _ hu) k hk
      cases hg : track_qual_id t with
      | none =>
          have h1 : insert_fold d (t :: ts) = insert_fold d ts := by
            simp [insert_fold, hg]
          rw [h1]
          exact ih hqts d hd
      | some k =>
          have h1 : insert_fold d (t :: ts) = insert_fold (dict_insert d k t) ts := by
            simp [insert_fold, hg]
          rw [h1]
          exact ih hqts _ (dict_insert_vals d k t P hd (hqt k hg))

theorem track_qual_id_get (t k : PyVal) (h : track_qual_id t = some k) :
    t.get "id" = k := by
  unfold track_qual_id at h
  cases ht : t.truthy with
  | false => rw [ht] at h; simp at h
  | true =>
      rw [ht] at h
      simp only [if_true] at h
      cases t with
      | dict kvs =>
          by_cases hid : (dictGetD kvs "id" .none).truthy = true
          · simp only [hid, if_true] at h
            simp at h
            exact h
          · simp only [Bool.not_eq_true] at hid
            simp [hid] at h
      | none => simp at h
      | bool b => simp at h
      | int n => simp at h
      | str s => simp at h
      | list xs => simp at h

theorem insert_fold_append (d : List (PyVal × PyVal)) (l1 l2 : List PyVal) :
    insert_fold d (l1 ++ l2) = insert_fold (insert_fold d l1) l2 := by
  unfold insert_fold
  exact List.foldl_append _ _ _ _

theorem playlists_fold_eq (pls : List (List PyVal)) :
    ∀ d, (∀ pl ∈ pls, ∀ t ∈ pl, t.truthy = true → t.isDict = true) →
      pls.foldl (fun d2 pl => (scan_tracks d2 pl).1) d = insert_fold d pls.join := by
  induction pls with
  | nil => intro d _; rfl
  | cons pl pls ih =>
      intro d hwf
      rw [List.foldl_cons, scan_tracks_eq pl d (fun t ht => hwf pl (by simp) t ht)]
      have hj : (pl :: pls).join = pl ++ pls.join := rfl
      rw [hj, insert_fold_append]
      exact ih _ (fun q hq t ht => hwf q (by simp [hq]) t ht)

/-- C6: merging the saved library with the tracks of N playlists keyed
by `id` (last-write-wins) yields a list whose size is the number of
distinct qualifying (truthy) ids across all sources, and whose tracks
carry pairwise-distinct ids. -/
theorem C6_merge_unique_ids (saved : List PyVal) (playlists : List (List PyVal))
    (hs : ∀ t ∈ saved, t.truthy = true → t.isDict = true)
    (hp : ∀ pl ∈ playlists, ∀ t ∈ pl, t.truthy = true → t.isDict = true) :
    ∃ res, get_all_user_tracks_heavy saved playlists = some res ∧
      res.length = (qual_ids (saved ++ playlists.join)).toFinset.card ∧
      (res.map (fun t => t.get "id")).Nodup := by
  have hscan := scan_tracks_eq saved [] hs
  have hfold := playlists_fold_eq playlists (insert_fold [] saved) hp
  have hfinal : get_all_user_tracks_heavy saved playlists =
      some ((insert_fold [] (saved ++ playlists.join)).map Prod.snd) := by
    unfold get_all_user_tracks_heavy
    rw [hscan]
    simp only [Bool.false_eq_true, if_false]
    rw [hfold, insert_fold_append]
  set D := insert_fold [] (saved ++ playlists.join) with hD
  have hnodup : (D.map Prod.fst).Nodup :=
    insert_fold_nodup (saved ++ playlists.join) [] (by simp)
  have hkeys : ∀ x, x ∈ D.map Prod.fst ↔ x ∈ qual_ids (saved ++ playlists.join) := by
    intro x
    rw [hD, insert_fold_keys]
    simp
  have hseteq : (D.map Prod.fst).toFinset =
      (qual_ids (saved ++ playlists.join)).toFinset := by
    apply Finset.ext
    intro a
    rw [List.mem_toFinset, List.mem_toFinset]
    exact hkeys a
  refine ⟨D.map Prod.snd, hfinal, ?_, ?_⟩
  · rw [← hseteq, List.toFinset_card_of_nodup hnodup]
    simp
  · have hvals : ∀ p ∈ D, p.2.get "id" = p.1 := by
      apply insert_fold_vals (saved ++ playlists.join) (fun p => p.2.get "id" = p.1)
      · intro t _ k hk
        exact track_qual_id_get t k hk
      · intro p hp
        simp at hp
    have hmapeq : (D.map Prod.snd).map (fun t => t.get "id") = D.map Prod.fst := by
      rw [List.map_map]
      apply List.map_congr_left
      intro p hp
      exact hvals p hp
    rw [hmapeq]
    exact hnodup

/-- Witness for C6. -/
theorem C6_witness :
    (∀ t ∈ c6Saved, t.truthy = true → t.isDict = true) ∧
    (∀ pl ∈ c6Playlists, ∀ t ∈ pl, t.truthy = true → t.isDict = true) ∧
    ∃ res, get_all_user_tracks_heavy c6Saved c6Playlists = some res ∧
      res.length = (qual_ids (c6Saved ++ c6Playlists.join)).toFinset.card ∧
      (res.map (fun t => t.get "id")).Nodup :=
  ⟨by decide, by decide, C6_merge_unique_ids c6Saved c6Playlists (by decide) (by decide)⟩
